import Mathlib

/-! Retinal-segmentation demo page: a shallow embedding of `script.js`

The development embeds the upload / pseudo-segmentation / preview pipeline of
`src/新技术专题/script.js` and proves properties of it.

Conventions of the embedding

* JavaScript numbers are IEEE-754 doubles.  The only non-integer arithmetic of
  the pipeline is the luminance `0.2989 * R + 0.5870 * G + 0.1140 * B`; every
  double that occurs there is a non-negative multiple of `2^-56`, so a double is
  represented by the natural number `x` with value `x * 2^-56`, and every
  operation is the exact operation followed by round-to-nearest-even to 53
  significant bits (`fl53`).
* A `Uint8ClampedArray` is a `List Nat`; an out-of-range read is `none`
  (JavaScript `undefined`), an out-of-range write is ignored (`List.set`).
* A data URL is represented by the raster it encodes.
* A canvas holds 8-bit premultiplied RGBA; compositing is computed exactly and
  each stored channel is rounded to the nearest integer, halves up; the global
  alpha `currentOpacity / 100` is kept in hundredths.
-/

namespace RetinalSeg

/-! ## IEEE-754 double arithmetic on the `2^-56` grid -/

/-- Nearest integer to `n / d`, ties to the even integer. -/
def roundHalfEven (n d : Nat) : Nat :=
  let q := n / d
  let r := n % d
  if 2 * r < d then q
  else if d < 2 * r then q + 1
  else if q % 2 = 0 then q else q + 1

/-- Auxiliary of `floorLog2`, by halving at most `fuel` times. -/
def floorLog2Aux : Nat → Nat → Nat
  | 0, _ => 0
  | fuel + 1, x => if x < 2 then 0 else floorLog2Aux fuel (x / 2) + 1

/-- The position of the leading bit of `x` (`0` for `x = 0`). -/
def floorLog2 (x : Nat) : Nat := floorLog2Aux x x

/-- The double nearest to the rational `n / d`, both the argument and the result
in units of `2^-56`: the quotient is rounded to 53 significant bits, ties to
even.  Exact for every `n / d` that is at least `2^52` units (`2^-4`) and for
every integral `n / d`, which covers all values of the luminance computation. -/
def fl53 (n d : Nat) : Nat :=
  let s := floorLog2 (n / d) - 52
  roundHalfEven n (d * 2 ^ s) * 2 ^ s

/-- The double denoted by a decimal literal `n / 10000`. -/
def literal (n : Nat) : Nat := fl53 (n * 2 ^ 56) 10000

/-- Double multiplication of a double `a` by an integer-valued double `k`. -/
def fmul (a k : Nat) : Nat := fl53 (a * k) 1

/-- Double addition. -/
def fadd (a b : Nat) : Nat := fl53 (a + b) 1

/-- The integer `k` as a double (exact for the thresholds 90 and 100). -/
def ofInt (k : Nat) : Nat := k * 2 ^ 56

/-- Line 524: `0.2989 * data[i] + 0.5870 * data[i+1] + 0.1140 * data[i+2]`,
evaluated left to right in double arithmetic. -/
def gray (r g b : Nat) : Nat :=
  fadd (fadd (fmul (literal 2989) r) (fmul (literal 5870) g)) (fmul (literal 1140) b)

/-! ## Model variants -/

/-- The values passed as `modelType` / stored in `currentModel`.  `other` stands
for any value different from the two strings (the unused backend stub calls
`generateSegmentedImage()` with no argument). -/
inductive ModelType
  | baseUnet
  | cbamNet
  | other
  deriving DecidableEq, Repr

/-- Line 518: `modelType === 'cbamNet' ? 90 : 100`. -/
def threshold (modelType : ModelType) : Nat :=
  if modelType = ModelType.cbamNet then 90 else 100

/-- Line 519: `modelType === 'cbamNet' ? [0, 0, 255] : [255, 0, 0]`. -/
def vesselColor (modelType : ModelType) : Nat × Nat × Nat :=
  if modelType = ModelType.cbamNet then (0, 0, 255) else (255, 0, 0)

/-! ## The pixel loop of `generateSegmentedImage` -/

/-- Line 527: `gray < threshold`; a read past the end of the buffer is
`undefined`, the luminance is then `NaN` and the comparison is false. -/
def belowThreshold (modelType : ModelType) (data : List Nat) (i : Nat) : Bool :=
  match data[i]?, data[i + 1]?, data[i + 2]? with
  | some r, some g, some b => decide (gray r g b < ofInt (threshold modelType))
  | _, _, _ => false

/-- Lines 527-539: the body of the loop at index `i`. -/
def paintPixel (modelType : ModelType) (data : List Nat) (i : Nat) : List Nat :=
  if belowThreshold modelType data i then
    (((data.set i (vesselColor modelType).1).set (i + 1) (vesselColor modelType).2.1).set
      (i + 2) (vesselColor modelType).2.2).set (i + 3) 255
  else
    (((data.set i 255).set (i + 1) 255).set (i + 2) 255).set (i + 3) 255

/-- Line 522: `for (let i = 0; i < data.length; i += 4)`, with a bound on the
number of iterations; `none` when the bound is exhausted before the loop
condition fails. -/
def segmentLoop (modelType : ModelType) : Nat → Nat → List Nat → Option (List Nat)
  | 0, _, _ => none
  | fuel + 1, i, data =>
    if i < data.length then segmentLoop modelType fuel (i + 4) (paintPixel modelType data i)
    else some data

/-- Lines 515-540: the pixel buffer after the loop. -/
def segmentData (modelType : ModelType) (data : List Nat) : Option (List Nat) :=
  segmentLoop modelType (data.length + 1) 0 data


/-- The luminance `0.2989·R + 0.5870·G + 0.1140·B` in exact arithmetic, as the
specification writes it. -/
def luminance (r g b : Nat) : ℚ := 0.2989 * r + 0.5870 * g + 0.1140 * b

/-- The pixel the loop body writes for the colour `(r, g, b)`. -/
def paintedPixel (modelType : ModelType) (r g b : Nat) : Nat × Nat × Nat × Nat :=
  if gray r g b < ofInt (threshold modelType) then
    ((vesselColor modelType).1, (vesselColor modelType).2.1, (vesselColor modelType).2.2, 255)
  else (255, 255, 255, 255)

/-- Pixel `k` of an RGBA buffer, when the buffer holds all four channels. -/
def pixelAt (data : List Nat) (k : Nat) : Option (Nat × Nat × Nat × Nat) :=
  match data[4 * k]?, data[4 * k + 1]?, data[4 * k + 2]?, data[4 * k + 3]? with
  | some r, some g, some b, some a => some (r, g, b, a)
  | _, _, _, _ => none

/-- The state of the loop before the iteration of pixel `q`: the pixels before
`q` are painted from the input, the rest of the buffer is the input. -/
def LoopInv (m : ModelType) (data : List Nat) (n q : Nat) (d : List Nat) : Prop :=
  d.length = 4 * n ∧ (∀ j, 4 * q ≤ j → d[j]? = data[j]?) ∧
    ∀ k, k < q → ∀ r g b, data[4 * k]? = some r → data[4 * k + 1]? = some g →
      data[4 * k + 2]? = some b →
      d[4 * k]? = some (paintedPixel m r g b).1 ∧
      d[4 * k + 1]? = some (paintedPixel m r g b).2.1 ∧
      d[4 * k + 2]? = some (paintedPixel m r g b).2.2.1 ∧
      d[4 * k + 3]? = some (paintedPixel m r g b).2.2.2

/-! ## Rasters, URLs and files -/

/-- A decoded raster; `data` is its RGBA buffer, 8 bits per channel and not
premultiplied, row by row. -/
structure Image where
  width : Nat
  height : Nat
  data : List Nat
  deriving DecidableEq, Repr

/-- The buffer has four channels per pixel. -/
def Image.WellFormed (img : Image) : Prop := img.data.length = 4 * (img.width * img.height)

/-- Every pixel has alpha 255. -/
def Image.Solid (img : Image) : Prop :=
  ∀ k, k < img.width * img.height → img.data[4 * k + 3]? = some 255

/-- The value of one of the `...Src` variables: the empty string, or a data URL
together with the raster an `Image` element decodes it to (`none` when the
data is not a decodable image, so that `onload` never fires). -/
inductive Src
  | empty
  | dataURL (img : Option Image)
  deriving DecidableEq, Repr

/-- The raster an `Image` element obtains from a source, if it loads. -/
def Src.load : Src → Option Image
  | Src.empty => none
  | Src.dataURL img => img

/-- A `File`: name, media type, size in bytes, and what an image decoder makes
of its bytes. -/
structure File where
  name : String
  type : String
  size : Nat
  content : Option Image
  deriving DecidableEq, Repr

/-- The regular expression `image.*` tried at the start of `s`: the literal
`image`, then `.*`, which matches the empty run and so never fails. -/
def matchHere (s : List Char) : Bool := "image".toList.isPrefixOf s

/-- Line 183: `file.type.match('image.*')`: the string is turned into an
unanchored regular expression, which is tried at every position. -/
def matchImage : List Char → Bool
  | [] => matchHere []
  | c :: s => matchHere (c :: s) || matchImage s

/-- An image media type: `image/` followed by a non-empty subtype. -/
def isImageType (type : String) : Bool :=
  "image/".toList.isPrefixOf type.toList && decide (6 < type.toList.length)

/-! ## The size text -/

/-- The decimal digit `d` as a character. -/
def digitChar (d : Nat) : Char := Char.ofNat (48 + d)

/-- Auxiliary of `decimal`: the digits of `n` put in front of `acc`, at most
`fuel` of them. -/
def decimalAux : Nat → Nat → List Char → List Char
  | 0, _, acc => acc
  | fuel + 1, n, acc =>
    if n < 10 then digitChar n :: acc
    else decimalAux fuel (n / 10) (digitChar (n % 10) :: acc)

/-- The string of a non-negative integer below `10^21`: its decimal digits. -/
def decimal (n : Nat) : List Char := decimalAux (n + 1) n []

/-- `x.toFixed(2)` for the number `x = num / den`: beyond `10^21` the result is
the exponent form of `x` (not modelled, `none`); otherwise `n` is the integer
for which `n / 100 - x` is closest to zero, the larger one of two, its digits
are padded with zeros to three characters, and a point is put before the last
two. -/
def toFixed2 (num den : Nat) : Option (List Char) :=
  if 10 ^ 21 * den ≤ num then none
  else
    let n := (2 * 100 * num + den) / (2 * den)
    let m := decimal n
    let m := if m.length ≤ 2 then List.replicate (2 + 1 - m.length) '0' ++ m else m
    some (m.take (m.length - 2) ++ '.' :: m.drop (m.length - 2))

/-- Lines 211-215.  `bytes` is an integer-valued double, so the two divisions
by a power of two are exact. -/
def formatFileSize (bytes : Nat) : Option String :=
  if bytes < 1024 then some (String.mk (decimal bytes ++ " B".toList))
  else if bytes < 1048576 then
    (toFixed2 bytes 1024).map (fun s => String.mk (s ++ " KB".toList))
  else (toFixed2 bytes 1048576).map (fun s => String.mk (s ++ " MB".toList))

/-- The hundredths `q` written with exactly two decimal places: the digits of
`q / 100`, a point, and the two digits of `q % 100`. -/
def twoPlaces (q : Nat) : List Char :=
  decimal (q / 100) ++ ['.', digitChar (q / 10 % 10), digitChar (q % 10)]

/-- The integer `q` is the nearest to `100 * num / den`, the larger of two. -/
def NearestHundredths (num den q : Nat) : Prop :=
  2 * den * q ≤ 2 * 100 * num + den ∧ 2 * 100 * num + den < 2 * den * (q + 1)

/-! ## The canvas -/

/-- Nearest integer to `n / d`, halves up. -/
def roundDiv (n d : Nat) : Nat := (2 * n + d) / (2 * d)

/-- The bitmap of a canvas: 8-bit RGBA, row by row, the colour channels
premultiplied by alpha.  The standard leaves the precision of compositing to
the browser; here every stored channel is the exact value rounded to the
nearest integer, halves up. -/
structure Canvas where
  width : Nat
  height : Nat
  data : List Nat
  deriving DecidableEq, Repr

/-- Setting `canvas.width` / `canvas.height`: the bitmap is cleared to
transparent black. -/
def Canvas.create (width height : Nat) : Canvas :=
  { width := width, height := height, data := List.replicate (4 * (width * height)) 0 }

/-- The setter of `ctx.globalAlpha`, in hundredths: values outside `[0, 1]` are
ignored. -/
def setGlobalAlpha (current value : Nat) : Nat :=
  if value ≤ 100 then value else current

/-- Channel `i` of the bitmap after `ctx.drawImage(img, 0, 0)` with the given
global alpha (in hundredths): source-over compositing of the image pixel, its
alpha scaled by the global alpha, over the backdrop, wherever the image covers
the canvas.  `w` is the source alpha in units of `1 / 25500`. -/
def compositeChannel (globalAlpha : Nat) (img : Image) (c : Canvas) (i : Nat) : Nat :=
  let k := i / 4
  let x := k % c.width
  let y := k / c.width
  let cb := c.data.getD i 0
  if x < img.width ∧ y < img.height then
    let j := y * img.width + x
    let cs := img.data.getD (4 * j + i % 4) 0
    let w := img.data.getD (4 * j + 3) 0 * globalAlpha
    if i % 4 = 3 then roundDiv (255 * w + cb * (25500 - w)) 25500
    else roundDiv (cs * w + cb * (25500 - w)) 25500
  else cb

/-- The canvas after `ctx.drawImage(img, 0, 0)`. -/
def drawImage (globalAlpha : Nat) (img : Image) (c : Canvas) : Canvas :=
  { c with data := (List.range (4 * (c.width * c.height))).map (compositeChannel globalAlpha img c) }

/-- The buffer of `ctx.getImageData(0, 0, canvas.width, canvas.height)`, which
is also the raster of the PNG of `canvas.toDataURL`: the colour channels are
divided by alpha again, and a pixel of alpha 0 is transparent black. -/
def Canvas.getImageData (c : Canvas) : List Nat :=
  (List.range (4 * (c.width * c.height))).map fun i =>
    let a := c.data.getD (4 * (i / 4) + 3) 0
    if i % 4 = 3 then a
    else if a = 0 then 0
    else roundDiv (c.data.getD i 0 * 255) a

/-- Lines 507-515: the canvas takes the size of the image, the image is drawn
on it with the default global alpha 1, and the pixels are read back. -/
def readPixels (img : Image) : List Nat :=
  (drawImage 100 img (Canvas.create img.width img.height)).getImageData

/-- Lines 570-579 (and 613-622, 631-640): the canvas of an overlay: sized to
the original, the original drawn with the default global alpha 1, then the
segmentation drawn with `globalAlpha = currentOpacity / 100`. -/
def overlayCanvas (currentOpacity : Nat) (originalImg segmentedImg : Image) : Canvas :=
  let canvas := Canvas.create originalImg.width originalImg.height
  let canvas := drawImage 100 originalImg canvas
  drawImage (setGlobalAlpha 100 currentOpacity) segmentedImg canvas

/-- The pixels shown for the canvas `c` are the blend of two rasters with weight
`a = opacity / 100` on the second, rounded to 8 bits: the canvas has the size of
the first raster, every channel is the nearest integer to
`original * (1 - a) + segmented * a` and so within `1/2` of it, and the pixels
are those of the first raster for opacity 0 and of the second for opacity
100. -/
def IsBlend (opacity : Nat) (originalImg segmentedImg : Image) (c : Canvas) : Prop :=
  c.width = originalImg.width ∧ c.height = originalImg.height ∧
  (∀ i, i < 4 * (originalImg.width * originalImg.height) →
    ∃ d, c.getImageData[i]? = some d ∧
      d = roundDiv (originalImg.data.getD i 0 * (100 - opacity) +
        segmentedImg.data.getD i 0 * opacity) 100 ∧
      |(d : ℚ) - (((originalImg.data.getD i 0 : Nat) : ℚ) * (1 - (opacity : ℚ) / 100) +
        ((segmentedImg.data.getD i 0 : Nat) : ℚ) * ((opacity : ℚ) / 100))| ≤ 1 / 2) ∧
  (opacity = 0 → c.getImageData = originalImg.data) ∧
  (opacity = 100 → c.getImageData = segmentedImg.data)

/-! ## The page -/

/-- The values of `currentView`. -/
inductive View
  | original
  | segmented
  | overlay
  deriving DecidableEq, Repr

/-- The values of `currentDisplayMode`. -/
inductive DisplayMode
  | single
  | compare
  deriving DecidableEq, Repr

/-- The `src` of one of the three `<img>` elements of the preview: a URL held in
one of the page variables, or the `toDataURL` of an overlay canvas. -/
inductive Shown
  | src (s : Src)
  | canvas (c : Canvas)
  deriving DecidableEq

/-- The page: the eight `let` variables of lines 124-131, the `src` of the three
preview elements, the alerts raised so far, and the asynchronous work in
flight (file readers, scheduled generations, images waiting for `onload`).
What is presentation only (class lists, the file name and size texts, the
progress bar, the slider label) is not part of the page. -/
structure Page where
  selectedFile : Option File
  currentView : View
  currentModel : ModelType
  currentDisplayMode : DisplayMode
  originalImageSrc : Src
  segmentedImageSrcBase : Src
  segmentedImageSrcCBAM : Src
  currentOpacity : Nat
  previewImage : Shown
  baseUnetImage : Shown
  cbamNetImage : Shown
  alerts : List String
  readers : List File
  timers : List ModelType
  loading : List (ModelType × Src)
  deriving DecidableEq

/-- The page as loaded (lines 124-131). -/
def Page.initial : Page :=
  { selectedFile := none
    currentView := View.original
    currentModel := ModelType.baseUnet
    currentDisplayMode := DisplayMode.single
    originalImageSrc := Src.empty
    segmentedImageSrcBase := Src.empty
    segmentedImageSrcCBAM := Src.empty
    currentOpacity := 50
    previewImage := Shown.src Src.empty
    baseUnetImage := Shown.src Src.empty
    cbamNetImage := Shown.src Src.empty
    alerts := []
    readers := []
    timers := []
    loading := [] }

/-- Lines 182-209, up to the start of the asynchronous read. -/
def handleFiles (file : File) (p : Page) : Page :=
  if !matchImage file.type.toList then
    { p with alerts := p.alerts ++ ["请上传图片文件！"] }
  else if file.size > 5 * 1024 * 1024 then
    { p with alerts := p.alerts ++ ["文件大小不能超过5MB！"] }
  else
    { p with selectedFile := some file, readers := p.readers ++ [file] }

/-- Lines 201-207: `reader.onload` for `file`. -/
def readerOnload (file : File) (p : Page) : Page :=
  { p with
    originalImageSrc := Src.dataURL file.content
    previewImage := Shown.src (Src.dataURL file.content) }

/-- The call raised an alert. -/
def rejects (file : File) (p : Page) : Prop := (handleFiles file p).alerts ≠ p.alerts

/-- The call raised no alert and made `file` the selected file. -/
def accepts (file : File) (p : Page) : Prop :=
  (handleFiles file p).alerts = p.alerts ∧ (handleFiles file p).selectedFile = some file

/-- Lines 218-245: the click handler of `removeFile`. -/
def removeFileClick (p : Page) : Page :=
  { p with
    selectedFile := none
    originalImageSrc := Src.empty
    segmentedImageSrcBase := Src.empty
    segmentedImageSrcCBAM := Src.empty
    currentModel := ModelType.baseUnet
    currentDisplayMode := DisplayMode.single
    currentOpacity := 50 }

/-- Lines 565 and 472: the cached result of the current model. -/
def currentModelSrc (p : Page) : Src :=
  if p.currentModel = ModelType.baseUnet then p.segmentedImageSrcBase else p.segmentedImageSrcCBAM

/-- Lines 558-594: both images are loaded, then the overlay canvas is shown in
`previewImage`; when one of them does not load nothing is shown. -/
def createOverlayImage (p : Page) : Page :=
  match p.originalImageSrc.load, (currentModelSrc p).load with
  | some originalImg, some segmentedImg =>
    { p with previewImage := Shown.canvas (overlayCanvas p.currentOpacity originalImg segmentedImg) }
  | _, _ => p

/-- Lines 611-626 and 647-649: the BaseU-Net slot of the comparison. -/
def createOverlayBase (p : Page) : Page :=
  match p.originalImageSrc.load, p.segmentedImageSrcBase.load with
  | some originalImg1, some segmentedImg1 =>
    { p with baseUnetImage := Shown.canvas (overlayCanvas p.currentOpacity originalImg1 segmentedImg1) }
  | _, _ => p

/-- Lines 629-644 and 651-653: the CBAM-Net slot of the comparison. -/
def createOverlayCBAM (p : Page) : Page :=
  match p.originalImageSrc.load, p.segmentedImageSrcCBAM.load with
  | some originalImg2, some segmentedImg2 =>
    { p with cbamNetImage := Shown.canvas (overlayCanvas p.currentOpacity originalImg2 segmentedImg2) }
  | _, _ => p

/-- Lines 597-658. -/
def createOverlayImageForComparison (p : Page) : Page :=
  createOverlayCBAM (createOverlayBase p)

/-- Lines 458-496. -/
def updatePreview (p : Page) : Page :=
  match p.currentDisplayMode with
  | DisplayMode.single =>
    match p.currentView with
    | View.original => { p with previewImage := Shown.src p.originalImageSrc }
    | View.segmented => { p with previewImage := Shown.src (currentModelSrc p) }
    | View.overlay => createOverlayImage p
  | DisplayMode.compare =>
    match p.currentView with
    | View.original =>
      { p with
        baseUnetImage := Shown.src p.originalImageSrc
        cbamNetImage := Shown.src p.originalImageSrc }
    | View.segmented =>
      { p with
        baseUnetImage := Shown.src p.segmentedImageSrcBase
        cbamNetImage := Shown.src p.segmentedImageSrcCBAM }
    | View.overlay => createOverlayImageForComparison p

/-- Lines 546-550: the result is stored under the model it was made for. -/
def storeResult (modelType : ModelType) (result : Src) (p : Page) : Page :=
  if modelType = ModelType.baseUnet then { p with segmentedImageSrcBase := result }
  else { p with segmentedImageSrcCBAM := result }

/-- Lines 505-551: `img.onload` of `generateSegmentedImage(modelType)`, for
the raster `img` that the element has loaded: the pixels are read through the
canvas, the loop paints them, and the painted buffer, whose pixels all have
alpha 255, is put back and encoded.  `getImageData` throws on an empty
rectangle, which ends the callback. -/
def generateSegmentedImageOnload (modelType : ModelType) (img : Image) (p : Page) : Page :=
  if img.width * img.height = 0 then p
  else
    match segmentData modelType (readPixels img) with
    | some data => storeResult modelType (Src.dataURL (some { img with data := data })) p
    | none => p

/-- Lines 499-504 and 554: the synchronous part of
`generateSegmentedImage(modelType)`: a new `Image` element starts to load the
current `originalImageSrc`. -/
def generateSegmentedImage (modelType : ModelType) (p : Page) : Page :=
  { p with loading := p.loading ++ [(modelType, p.originalImageSrc)] }

/-- A one-pixel black raster. -/
def blackPixel : Image := { width := 1, height := 1, data := [0, 0, 0, 255] }

/-- A one-pixel white raster. -/
def whitePixel : Image := { width := 1, height := 1, data := [255, 255, 255, 255] }

/-- A small PNG of one black pixel. -/
def blackPng : File := { name := "black.png", type := "image/png", size := 68, content := some blackPixel }

/-- A small PNG of one white pixel. -/
def whitePng : File := { name := "white.png", type := "image/png", size := 68, content := some whitePixel }

/-- A disk image, as a browser reports it: the media type is not an image type
but contains the word `image`. -/
def diskImage : File :=
  { name := "setup.dmg", type := "application/x-apple-diskimage", size := 1024, content := none }

/-- What the user and the browser can do to the page. -/
inductive Event
  | upload (file : File)
  | decodeComplete (k : Nat)
  | remove
  | process
  | generationStart (k : Nat)
  | generationComplete (k : Nat)
  | selectView (v : View)
  | selectModel (m : ModelType)
  | selectCompare
  | slide (value : Nat)

/-- One step of the page.  `upload` is `handleFiles`; `decodeComplete k` is
the `onload` of the `k`-th reader in flight; `process` is the click of lines
248-261, whose timers end in the scheduled call of line 353;
`generationStart k` fires the `k`-th scheduled call (line 353, which
schedules line 355, or lines 355-359); `generationComplete k` is the `onload`
of the `k`-th image of `generateSegmentedImage` (an image that cannot load
is dropped).  `none` when the event is not enabled. -/
def step (p : Page) : Event → Option Page
  | Event.upload file => some (handleFiles file p)
  | Event.decodeComplete k =>
    match p.readers[k]? with
    | some file => some (readerOnload file { p with readers := p.readers.eraseIdx k })
    | none => none
  | Event.remove => some (removeFileClick p)
  | Event.process =>
    match p.selectedFile with
    | some _ => some { p with timers := p.timers ++ [ModelType.baseUnet] }
    | none => some p
  | Event.generationStart k =>
    match p.timers[k]? with
    | some ModelType.baseUnet =>
      let q := generateSegmentedImage ModelType.baseUnet { p with timers := p.timers.eraseIdx k }
      some { q with timers := q.timers ++ [ModelType.cbamNet] }
    | some modelType =>
      some (updatePreview (generateSegmentedImage modelType { p with timers := p.timers.eraseIdx k }))
    | none => none
  | Event.generationComplete k =>
    match p.loading[k]? with
    | some (modelType, src) =>
      match src.load with
      | some img =>
        some (generateSegmentedImageOnload modelType img { p with loading := p.loading.eraseIdx k })
      | none => some { p with loading := p.loading.eraseIdx k }
    | none => none
  | Event.selectView v => some (updatePreview { p with currentView := v })
  | Event.selectModel m =>
    some (updatePreview { p with currentModel := m, currentDisplayMode := DisplayMode.single })
  | Event.selectCompare => some (updatePreview { p with currentDisplayMode := DisplayMode.compare })
  | Event.slide value =>
    let q := { p with currentOpacity := value }
    some (if q.currentView = View.overlay then updatePreview q else q)

/-- The page after a sequence of events, `none` if one of them is not enabled. -/
def run (p : Page) : List Event → Option Page
  | [] => some p
  | e :: es =>
    match step p e with
    | some q => run q es
    | none => none

/-- A black pixel is uploaded and processed for both variants, then a white
pixel is uploaded and decoded. -/
def replaceAfterProcessing : List Event :=
  [Event.upload blackPng, Event.decodeComplete 0, Event.process, Event.generationStart 0,
    Event.generationComplete 0, Event.generationStart 0, Event.generationComplete 0,
    Event.upload whitePng, Event.decodeComplete 0]

/-- A black pixel is uploaded and processed; while the image of the 'cbamNet'
generation is still loading, a white pixel is uploaded and decoded; then the
generation completes. -/
def replaceWhilePending : List Event :=
  [Event.upload blackPng, Event.decodeComplete 0, Event.process, Event.generationStart 0,
    Event.generationComplete 0, Event.generationStart 0,
    Event.upload whitePng, Event.decodeComplete 0, Event.generationComplete 0]

/-- The segmentation of the black pixel by 'baseUnet'. -/
def redPixel : Image := { width := 1, height := 1, data := [255, 0, 0, 255] }

/-- A page in the overlay view of 'baseUnet' at opacity 50, with the black
pixel as the original and the red pixel as its cached result. -/
def overlayPage : Page :=
  { Page.initial with
    selectedFile := some blackPng
    currentView := View.overlay
    originalImageSrc := Src.dataURL (some blackPixel)
    segmentedImageSrcBase := Src.dataURL (some redPixel) }

/-- A white raster of two pixels in a row. -/
def whitePair : Image :=
  { width := 2, height := 1, data := [255, 255, 255, 255, 255, 255, 255, 255] }

/-- A small PNG of two white pixels. -/
def pairPng : File := { name := "pair.png", type := "image/png", size := 70, content := some whitePair }

/-- A black pixel is uploaded and processed for both variants, then the white
pair is uploaded and decoded, the slider is moved to 100 and the overlay view is
chosen. -/
def replaceThenOverlay : List Event :=
  [Event.upload blackPng, Event.decodeComplete 0, Event.process, Event.generationStart 0,
    Event.generationComplete 0, Event.generationStart 0, Event.generationComplete 0,
    Event.upload pairPng, Event.decodeComplete 0, Event.slide 100,
    Event.selectView View.overlay]

/-- A white pixel that is fully transparent. -/
def clearWhitePixel : Image := { width := 1, height := 1, data := [255, 255, 255, 0] }

/-- A white raster of two pixels, one of alpha 255 and one of alpha 7. -/
def fadedWhitePair : Image :=
  { width := 2, height := 1, data := [255, 255, 255, 255, 255, 255, 255, 7] }

/-- A page that shows the white pixel while a 'cbamNet' generation started on
the black pixel is still loading. -/
def pendingPage : Page :=
  { Page.initial with
    selectedFile := some whitePng
    originalImageSrc := Src.dataURL (some whitePixel)
    previewImage := Shown.src (Src.dataURL (some whitePixel))
    loading := [(ModelType.cbamNet, Src.dataURL (some blackPixel))] }

end RetinalSeg

namespace RetinalSeg

/-! ## Rounding error of the double operations -/

theorem floorLog2Aux_le (fuel : Nat) : ∀ (x k : Nat), x < 2 ^ (k + 1) → floorLog2Aux fuel x ≤ k := by
  induction fuel with
  | zero => intro x k _; simp [floorLog2Aux]
  | succ fuel ih =>
    intro x k hx
    unfold floorLog2Aux
    split
    · exact Nat.zero_le _
    · rename_i h2
      cases k with
      | zero => simp at hx; omega
      | succ k =>
        have : x / 2 < 2 ^ (k + 1) := by
          rw [Nat.div_lt_iff_lt_mul (by norm_num)]
          rw [pow_succ] at hx
          exact hx
        have := ih (x / 2) k this
        omega

theorem floorLog2_le (x k : Nat) (hx : x < 2 ^ (k + 1)) : floorLog2 x ≤ k :=
  floorLog2Aux_le x x k hx

theorem roundHalfEven_bounds (n d : Nat) (hd : 0 < d) :
    roundHalfEven n d * d ≤ n + d ∧ n ≤ roundHalfEven n d * d + d := by
  have h1 : d * (n / d) + n % d = n := Nat.div_add_mod n d
  have h2 : n % d < d := Nat.mod_lt n hd
  have h3 : (n / d + 1) * d = d * (n / d) + d := by ring
  have h4 : n / d * d = d * (n / d) := by ring
  unfold roundHalfEven
  simp only
  split_ifs <;> constructor <;> rw [h4] at * <;> omega

theorem fl53_one_bounds (x : Nat) (hx : x < 2 ^ 64) :
    fl53 x 1 ≤ x + 2048 ∧ x ≤ fl53 x 1 + 2048 := by
  unfold fl53
  simp only [Nat.div_one, one_mul]
  have hs : floorLog2 x - 52 ≤ 11 := by
    have := floorLog2_le x 63 hx
    omega
  have hpos : 0 < 2 ^ (floorLog2 x - 52) := pow_pos (by norm_num) _
  have hle : 2 ^ (floorLog2 x - 52) ≤ 2048 := by
    calc 2 ^ (floorLog2 x - 52) ≤ 2 ^ 11 := Nat.pow_le_pow_right (by norm_num) hs
      _ = 2048 := by norm_num
  have := roundHalfEven_bounds x _ hpos
  omega

theorem literal_values :
    literal 2989 = 21538014857936660 ∧ literal 5870 = 42297807700263696 ∧
      literal 1140 = 8214565720323785 := by decide

/-- The double luminance is within `10240 · 2^-56` of the exact combination of
the three double weights. -/
theorem gray_bounds (r g b : Nat) (hr : r ≤ 255) (hg : g ≤ 255) (hb : b ≤ 255) :
    gray r g b ≤ 21538014857936660 * r + 42297807700263696 * g + 8214565720323785 * b + 10240 ∧
    21538014857936660 * r + 42297807700263696 * g + 8214565720323785 * b ≤ gray r g b + 10240 := by
  obtain ⟨h1, h2, h3⟩ := literal_values
  unfold gray fadd fmul
  rw [h1, h2, h3]
  have e1 := fl53_one_bounds (21538014857936660 * r) (by norm_num; omega)
  have e2 := fl53_one_bounds (42297807700263696 * g) (by norm_num; omega)
  have e3 := fl53_one_bounds (8214565720323785 * b) (by norm_num; omega)
  have e4 := fl53_one_bounds (fl53 (21538014857936660 * r) 1 + fl53 (42297807700263696 * g) 1)
    (by norm_num; omega)
  have e5 := fl53_one_bounds (fl53 (fl53 (21538014857936660 * r) 1 + fl53 (42297807700263696 * g) 1) 1
    + fl53 (8214565720323785 * b) 1) (by norm_num; omega)
  omega

theorem gray_lt_of_exact (r g b t : Nat) (hr : r ≤ 255) (hg : g ≤ 255) (hb : b ≤ 255)
    (h : 2989 * r + 5870 * g + 1140 * b < 10000 * t) : gray r g b < ofInt t := by
  have := gray_bounds r g b hr hg hb
  unfold ofInt
  norm_num
  omega

theorem gray_ge_of_exact (r g b t : Nat) (hr : r ≤ 255) (hg : g ≤ 255) (hb : b ≤ 255)
    (h : 10000 * t < 2989 * r + 5870 * g + 1140 * b) : ¬ gray r g b < ofInt t := by
  have := gray_bounds r g b hr hg hb
  unfold ofInt
  norm_num
  omega

theorem luminance_lt_iff (r g b t : Nat) :
    luminance r g b < (t : ℚ) ↔ 2989 * r + 5870 * g + 1140 * b < 10000 * t := by
  unfold luminance
  constructor
  · intro h
    have h2 : ((2989 * r + 5870 * g + 1140 * b : ℕ) : ℚ) < ((10000 * t : ℕ) : ℚ) := by
      push_cast
      linarith
    exact_mod_cast h2
  · intro h
    have h2 : ((2989 * r + 5870 * g + 1140 * b : ℕ) : ℚ) < ((10000 * t : ℕ) : ℚ) := by
      exact_mod_cast h
    push_cast at h2
    linarith

theorem lt_luminance_iff (r g b t : Nat) :
    (t : ℚ) < luminance r g b ↔ 10000 * t < 2989 * r + 5870 * g + 1140 * b := by
  unfold luminance
  constructor
  · intro h
    have h2 : ((10000 * t : ℕ) : ℚ) < ((2989 * r + 5870 * g + 1140 * b : ℕ) : ℚ) := by
      push_cast
      linarith
    exact_mod_cast h2
  · intro h
    have h2 : ((10000 * t : ℕ) : ℚ) < ((2989 * r + 5870 * g + 1140 * b : ℕ) : ℚ) := by
      exact_mod_cast h
    push_cast at h2
    linarith

/-! ## The pixel loop -/

theorem length_paintPixel (m : ModelType) (d : List Nat) (i : Nat) :
    (paintPixel m d i).length = d.length := by
  unfold paintPixel
  split <;> simp

theorem getElem?_paintPixel_of_ne (m : ModelType) (d : List Nat) (i j : Nat)
    (h0 : j ≠ i) (h1 : j ≠ i + 1) (h2 : j ≠ i + 2) (h3 : j ≠ i + 3) :
    (paintPixel m d i)[j]? = d[j]? := by
  unfold paintPixel
  split <;>
    rw [List.getElem?_set_ne (Ne.symm h3), List.getElem?_set_ne (Ne.symm h2),
      List.getElem?_set_ne (Ne.symm h1), List.getElem?_set_ne (Ne.symm h0)]

theorem getElem?_paintPixel (m : ModelType) (d : List Nat) (i r g b : Nat)
    (hlen : i + 3 < d.length) (hr : d[i]? = some r) (hg : d[i + 1]? = some g)
    (hb : d[i + 2]? = some b) :
    (paintPixel m d i)[i]? = some (paintedPixel m r g b).1 ∧
    (paintPixel m d i)[i + 1]? = some (paintedPixel m r g b).2.1 ∧
    (paintPixel m d i)[i + 2]? = some (paintedPixel m r g b).2.2.1 ∧
    (paintPixel m d i)[i + 3]? = some (paintedPixel m r g b).2.2.2 := by
  have hbt : belowThreshold m d i = decide (gray r g b < ofInt (threshold m)) := by
    unfold belowThreshold
    rw [hr, hg, hb]
  unfold paintPixel paintedPixel
  rw [hbt]
  by_cases hlt : gray r g b < ofInt (threshold m)
  · simp only [hlt, decide_True, if_true]
    simp [List.getElem?_set]
    omega
  · simp only [hlt, decide_False, if_false]
    simp [List.getElem?_set]
    omega

theorem loopInv_paintPixel (m : ModelType) (data : List Nat) (n q : Nat) (d : List Nat)
    (hq : q < n) (h : LoopInv m data n q d) :
    LoopInv m data n (q + 1) (paintPixel m d (4 * q)) := by
  obtain ⟨hl, hrest, hdone⟩ := h
  refine ⟨by rw [length_paintPixel, hl], ?_, ?_⟩
  · intro j hj
    rw [getElem?_paintPixel_of_ne m d (4 * q) j (by omega) (by omega) (by omega) (by omega)]
    exact hrest j (by omega)
  · intro k hk r g b hr hg hb
    by_cases hkq : k = q
    · subst hkq
      exact getElem?_paintPixel m d (4 * k) r g b (by omega)
        (by rw [hrest _ (by omega)]; exact hr) (by rw [hrest _ (by omega)]; exact hg)
        (by rw [hrest _ (by omega)]; exact hb)
    · have hlt : k < q := by omega
      rw [getElem?_paintPixel_of_ne m d (4 * q) (4 * k) (by omega) (by omega) (by omega) (by omega),
        getElem?_paintPixel_of_ne m d (4 * q) (4 * k + 1) (by omega) (by omega) (by omega) (by omega),
        getElem?_paintPixel_of_ne m d (4 * q) (4 * k + 2) (by omega) (by omega) (by omega) (by omega),
        getElem?_paintPixel_of_ne m d (4 * q) (4 * k + 3) (by omega) (by omega) (by omega) (by omega)]
      exact hdone k hlt r g b hr hg hb

theorem segmentLoop_spec (m : ModelType) (data : List Nat) (n : Nat) (hdata : data.length = 4 * n) :
    ∀ (fuel q : Nat) (d : List Nat), q ≤ n → n - q < fuel → LoopInv m data n q d →
      ∃ out, segmentLoop m fuel (4 * q) d = some out ∧ LoopInv m data n n out := by
  intro fuel
  induction fuel with
  | zero => intro q d _ hf _; omega
  | succ fuel ih =>
    intro q d hq hf hinv
    unfold segmentLoop
    by_cases hlt : 4 * q < d.length
    · rw [if_pos hlt]
      have hqn : q < n := by have := hinv.1; omega
      have := ih (q + 1) (paintPixel m d (4 * q)) hqn (by omega)
        (loopInv_paintPixel m data n q d hqn hinv)
      rw [Nat.mul_add, Nat.mul_one] at this
      exact this
    · rw [if_neg hlt]
      have hqn : q = n := by have := hinv.1; omega
      subst hqn
      exact ⟨d, rfl, hinv⟩

/-- The loop terminates within its bound and paints every pixel from the input
colour of that pixel. -/
theorem segmentData_spec (m : ModelType) (data : List Nat) (n : Nat) (hdata : data.length = 4 * n) :
    ∃ out, segmentData m data = some out ∧ out.length = data.length ∧
      ∀ k r g b a, pixelAt data k = some (r, g, b, a) →
        pixelAt out k = some (paintedPixel m r g b) := by
  have h0 : LoopInv m data n 0 data := ⟨hdata, fun _ _ => rfl, fun k hk => by omega⟩
  obtain ⟨out, hout, hl, _, hdone⟩ :=
    segmentLoop_spec m data n hdata (data.length + 1) 0 data (Nat.zero_le _) (by omega) h0
  refine ⟨out, hout, by rw [hl, hdata], ?_⟩
  intro k r g b a hpx
  unfold pixelAt at hpx
  split at hpx
  · rename_i r1 g1 b1 a1 hr hg hb ha
    simp only [Option.some.injEq, Prod.mk.injEq] at hpx
    obtain ⟨rfl, rfl, rfl, rfl⟩ := hpx
    have hk : k < n := by
      have := (List.getElem?_eq_some_iff.mp ha).1
      omega
    obtain ⟨o0, o1, o2, o3⟩ := hdone k hk _ _ _ hr hg hb
    unfold pixelAt
    rw [o0, o1, o2, o3]
  · exact absurd hpx (by simp)

/-! ## C1, C2: the output of `generateSegmentedImage` -/

theorem mem_of_pixelAt (data : List Nat) (k r g b a : Nat) (h : pixelAt data k = some (r, g, b, a)) :
    r ∈ data ∧ g ∈ data ∧ b ∈ data := by
  unfold pixelAt at h
  split at h
  · rename_i r1 g1 b1 a1 hr hg hb ha
    simp only [Option.some.injEq, Prod.mk.injEq] at h
    obtain ⟨rfl, rfl, rfl, rfl⟩ := h
    exact ⟨List.getElem?_mem hr, List.getElem?_mem hg, List.getElem?_mem hb⟩
  · exact absurd h (by simp)

theorem gray_lt_iff_luminance_lt (r g b t : Nat) (hr : r ≤ 255) (hg : g ≤ 255) (hb : b ≤ 255)
    (hne : luminance r g b ≠ (t : ℚ)) : gray r g b < ofInt t ↔ luminance r g b < (t : ℚ) := by
  rcases lt_trichotomy (luminance r g b) (t : ℚ) with hlt | heq | hgt
  · exact ⟨fun _ => hlt, fun _ => gray_lt_of_exact r g b t hr hg hb ((luminance_lt_iff r g b t).mp hlt)⟩
  · exact absurd heq hne
  · constructor
    · intro h
      exact absurd h (gray_ge_of_exact r g b t hr hg hb ((lt_luminance_iff r g b t).mp hgt))
    · intro h
      exact absurd h (not_lt.mpr hgt.le)

/-- C1, counterexample: the pixel `(30, 131, 124)` has luminance exactly 100 in
exact arithmetic, which is not below the threshold 100 of 'baseUnet', yet the
code paints it red: the double evaluation of the luminance is
`99.99999999999999`. -/
theorem generateSegmentedImage_tie_painted :
    luminance 30 131 124 = 100 ∧ threshold ModelType.baseUnet = 100 ∧
      ¬ (luminance 30 131 124 < (threshold ModelType.baseUnet : ℚ)) ∧
      segmentData ModelType.baseUnet [30, 131, 124, 255] = some [255, 0, 0, 255] := by
  have ht : threshold ModelType.baseUnet = 100 := by decide
  refine ⟨by norm_num [luminance], ht, ?_, by decide⟩
  rw [ht]
  norm_num [luminance]

/-- C1, amended: for every RGBA buffer with channels in 0..255 and every model
variant, the loop of `generateSegmentedImage` ends with a buffer of the same
length in which pixel `k` is `(vesselColor, 255)` when the luminance of the
input pixel, evaluated left to right in double arithmetic as the code does, is
below the threshold, and `(255, 255, 255, 255)` otherwise; the double comparison
agrees with the comparison in exact arithmetic for every pixel whose exact
luminance differs from the threshold; the thresholds and colours are
`(100, (255, 0, 0))` for 'baseUnet' and `(90, (0, 0, 255))` for 'cbamNet'; the
input alpha `a` does not occur in the output. -/
theorem generateSegmentedImage_pixels (m : ModelType) (data : List Nat) (n : Nat)
    (hlen : data.length = 4 * n) (hbyte : ∀ v ∈ data, v ≤ 255) :
    (∃ out, segmentData m data = some out ∧ out.length = data.length ∧
      ∀ k r g b a, pixelAt data k = some (r, g, b, a) →
        pixelAt out k = some
          (if gray r g b < ofInt (threshold m) then
            ((vesselColor m).1, (vesselColor m).2.1, (vesselColor m).2.2, 255)
          else (255, 255, 255, 255)) ∧
        (luminance r g b ≠ (threshold m : ℚ) →
          (gray r g b < ofInt (threshold m) ↔ luminance r g b < (threshold m : ℚ)))) ∧
    threshold ModelType.baseUnet = 100 ∧ vesselColor ModelType.baseUnet = (255, 0, 0) ∧
    threshold ModelType.cbamNet = 90 ∧ vesselColor ModelType.cbamNet = (0, 0, 255) := by
  refine ⟨?_, by decide, by decide, by decide, by decide⟩
  obtain ⟨out, hout, hl, hpx⟩ := segmentData_spec m data n hlen
  refine ⟨out, hout, hl, ?_⟩
  intro k r g b a hk
  obtain ⟨hr, hg, hb⟩ := mem_of_pixelAt data k r g b a hk
  refine ⟨?_, gray_lt_iff_luminance_lt r g b (threshold m) (hbyte r hr) (hbyte g hg) (hbyte b hb)⟩
  have := hpx k r g b a hk
  unfold paintedPixel at this
  exact this

/-- C1, witness: a two-pixel buffer. -/
theorem generateSegmentedImage_pixels_witness :
    ([0, 0, 0, 7, 200, 200, 200, 9] : List Nat).length = 4 * 2 ∧
    (∀ v ∈ ([0, 0, 0, 7, 200, 200, 200, 9] : List Nat), v ≤ 255) ∧
    ((∃ out, segmentData ModelType.cbamNet [0, 0, 0, 7, 200, 200, 200, 9] = some out ∧
      out.length = ([0, 0, 0, 7, 200, 200, 200, 9] : List Nat).length ∧
      ∀ k r g b a, pixelAt [0, 0, 0, 7, 200, 200, 200, 9] k = some (r, g, b, a) →
        pixelAt out k = some
          (if gray r g b < ofInt (threshold ModelType.cbamNet) then
            ((vesselColor ModelType.cbamNet).1, (vesselColor ModelType.cbamNet).2.1,
              (vesselColor ModelType.cbamNet).2.2, 255)
          else (255, 255, 255, 255)) ∧
        (luminance r g b ≠ (threshold ModelType.cbamNet : ℚ) →
          (gray r g b < ofInt (threshold ModelType.cbamNet) ↔
            luminance r g b < (threshold ModelType.cbamNet : ℚ)))) ∧
    threshold ModelType.baseUnet = 100 ∧ vesselColor ModelType.baseUnet = (255, 0, 0) ∧
    threshold ModelType.cbamNet = 90 ∧ vesselColor ModelType.cbamNet = (0, 0, 255)) :=
  ⟨by decide, by decide,
    generateSegmentedImage_pixels ModelType.cbamNet [0, 0, 0, 7, 200, 200, 200, 9] 2 (by decide)
      (by decide)⟩

/-- C2: for every RGBA buffer and every variant, every pixel of the output of
the loop of `generateSegmentedImage` is either the variant's mark colour with
alpha 255 or `(255, 255, 255, 255)`. -/
theorem generateSegmentedImage_two_colours (m : ModelType) (data : List Nat) (n : Nat)
    (hlen : data.length = 4 * n) :
    ∃ out, segmentData m data = some out ∧ out.length = 4 * n ∧
      ∀ k, k < n →
        pixelAt out k = some ((vesselColor m).1, (vesselColor m).2.1, (vesselColor m).2.2, 255) ∨
        pixelAt out k = some (255, 255, 255, 255) := by
  obtain ⟨out, hout, hl, hpx⟩ := segmentData_spec m data n hlen
  refine ⟨out, hout, by rw [hl, hlen], ?_⟩
  intro k hk
  have h0 : 4 * k < data.length := by omega
  have h1 : 4 * k + 1 < data.length := by omega
  have h2 : 4 * k + 2 < data.length := by omega
  have h3 : 4 * k + 3 < data.length := by omega
  have hin : pixelAt data k = some (data[4 * k], data[4 * k + 1], data[4 * k + 2], data[4 * k + 3]) := by
    unfold pixelAt
    rw [List.getElem?_eq_getElem h0, List.getElem?_eq_getElem h1, List.getElem?_eq_getElem h2,
      List.getElem?_eq_getElem h3]
  have := hpx k _ _ _ _ hin
  rw [this]
  unfold paintedPixel
  split
  · exact Or.inl rfl
  · exact Or.inr rfl

/-- C2, witness: a two-pixel buffer. -/
theorem generateSegmentedImage_two_colours_witness :
    ([0, 0, 0, 7, 200, 200, 200, 9] : List Nat).length = 4 * 2 ∧
    ∃ out, segmentData ModelType.baseUnet [0, 0, 0, 7, 200, 200, 200, 9] = some out ∧
      out.length = 4 * 2 ∧
      ∀ k, k < 2 →
        pixelAt out k = some ((vesselColor ModelType.baseUnet).1,
          (vesselColor ModelType.baseUnet).2.1, (vesselColor ModelType.baseUnet).2.2, 255) ∨
        pixelAt out k = some (255, 255, 255, 255) :=
  ⟨by decide,
    generateSegmentedImage_two_colours ModelType.baseUnet [0, 0, 0, 7, 200, 200, 200, 9] 2 (by decide)⟩

/-! ## C3, C4, C5: file intake -/

theorem matchImage_of_matchHere (s : List Char) (h : matchHere s = true) : matchImage s = true := by
  cases s with
  | nil => exact h
  | cons c s => simp [matchImage, h]

theorem matchImage_of_isImageType (type : String) (h : isImageType type = true) :
    matchImage type.toList = true := by
  apply matchImage_of_matchHere
  unfold isImageType at h
  simp only [Bool.and_eq_true] at h
  have h1 : "image/".toList <+: type.toList := List.isPrefixOf_iff_prefix.mp h.1
  have h2 : "image".toList <+: "image/".toList := by decide
  exact List.isPrefixOf_iff_prefix.mpr (h2.trans h1)

theorem handleFiles_of_not_match (file : File) (p : Page) (h : matchImage file.type.toList = false) :
    handleFiles file p = { p with alerts := p.alerts ++ ["请上传图片文件！"] } := by
  unfold handleFiles
  rw [h]
  rfl

theorem handleFiles_of_large (file : File) (p : Page) (h : matchImage file.type.toList = true)
    (hs : 5 * 1024 * 1024 < file.size) :
    handleFiles file p = { p with alerts := p.alerts ++ ["文件大小不能超过5MB！"] } := by
  unfold handleFiles
  rw [h, if_neg (by simp), if_pos hs]

theorem handleFiles_of_ok (file : File) (p : Page) (h : matchImage file.type.toList = true)
    (hs : file.size ≤ 5 * 1024 * 1024) :
    handleFiles file p = { p with selectedFile := some file, readers := p.readers ++ [file] } := by
  unfold handleFiles
  have : ¬ file.size > 5 * 1024 * 1024 := by omega
  rw [h, if_neg (by simp), if_neg this]

/-- C3: a file whose media type is an image type is accepted by `handleFiles`
(no alert, `selectedFile` set to it) if and only if its size is at most
`5 * 1024 * 1024` bytes, and is rejected (an alert) otherwise. -/
theorem handleFiles_image_accepts_iff (file : File) (p : Page) (h : isImageType file.type = true) :
    (accepts file p ↔ file.size ≤ 5 * 1024 * 1024) ∧
    (rejects file p ↔ 5 * 1024 * 1024 < file.size) := by
  have hm := matchImage_of_isImageType file.type h
  by_cases hs : file.size ≤ 5 * 1024 * 1024
  · have he := handleFiles_of_ok file p hm hs
    unfold accepts rejects
    rw [he]
    simp
    omega
  · have he := handleFiles_of_large file p hm (by omega)
    unfold accepts rejects
    rw [he]
    simp
    omega

/-- C3, witness: a PNG of exactly 5 MiB. -/
theorem handleFiles_image_accepts_iff_witness :
    isImageType "image/png" = true ∧
    (accepts { name := "a.png", type := "image/png", size := 5242880, content := none } Page.initial ↔
      5242880 ≤ 5 * 1024 * 1024) ∧
    (rejects { name := "a.png", type := "image/png", size := 5242880, content := none } Page.initial ↔
      5 * 1024 * 1024 < 5242880) :=
  ⟨by decide,
    handleFiles_image_accepts_iff
      { name := "a.png", type := "image/png", size := 5242880, content := none } Page.initial
      (by decide)⟩

/-- C4, the code at the failing input: the media type
`application/x-apple-diskimage` is not an image type, yet `handleFiles` raises
no alert and makes the file the selected file. -/
theorem handleFiles_accepts_diskImage :
    isImageType diskImage.type = false ∧
    (handleFiles diskImage Page.initial).alerts = [] ∧
    (handleFiles diskImage Page.initial).selectedFile = some diskImage ∧
    (handleFiles diskImage Page.initial).readers = [diskImage] := by
  decide

/-- C5: whenever `handleFiles` rejects a file, the page is as before the call
but for the alert: `selectedFile`, `originalImageSrc`, both cached results,
`currentView`, `currentModel`, `currentDisplayMode` and `currentOpacity` are
unchanged, and so are the images shown and the work in flight. -/
theorem handleFiles_rejects_unchanged (file : File) (p : Page) (h : rejects file p) :
    (handleFiles file p).selectedFile = p.selectedFile ∧
    (handleFiles file p).originalImageSrc = p.originalImageSrc ∧
    (handleFiles file p).segmentedImageSrcBase = p.segmentedImageSrcBase ∧
    (handleFiles file p).segmentedImageSrcCBAM = p.segmentedImageSrcCBAM ∧
    (handleFiles file p).currentView = p.currentView ∧
    (handleFiles file p).currentModel = p.currentModel ∧
    (handleFiles file p).currentDisplayMode = p.currentDisplayMode ∧
    (handleFiles file p).currentOpacity = p.currentOpacity ∧
    (handleFiles file p).previewImage = p.previewImage ∧
    (handleFiles file p).baseUnetImage = p.baseUnetImage ∧
    (handleFiles file p).cbamNetImage = p.cbamNetImage ∧
    (handleFiles file p).readers = p.readers ∧
    (handleFiles file p).timers = p.timers ∧
    (handleFiles file p).loading = p.loading := by
  by_cases hm : matchImage file.type.toList = true
  · by_cases hs : file.size ≤ 5 * 1024 * 1024
    · exfalso
      apply h
      rw [handleFiles_of_ok file p hm hs]
    · rw [handleFiles_of_large file p hm (by omega)]
      simp
  · rw [handleFiles_of_not_match file p (by simpa using hm)]
    simp

/-- C5, witness: a PNG of 6 MiB dropped on the page that shows a black pixel. -/
theorem handleFiles_rejects_unchanged_witness :
    rejects { name := "big.png", type := "image/png", size := 6291456, content := none }
      (readerOnload blackPng (handleFiles blackPng Page.initial)) ∧
    (handleFiles { name := "big.png", type := "image/png", size := 6291456, content := none }
      (readerOnload blackPng (handleFiles blackPng Page.initial))).selectedFile = some blackPng :=
  ⟨by unfold rejects; decide,
    (handleFiles_rejects_unchanged
      { name := "big.png", type := "image/png", size := 6291456, content := none }
      (readerOnload blackPng (handleFiles blackPng Page.initial))
      (by unfold rejects; decide)).1.trans (by decide)⟩

/-! ## The canvas -/

theorem pixel_index (w h i : Nat) (hi : i < 4 * (w * h)) :
    i / 4 % w < w ∧ i / 4 / w < h ∧ i / 4 / w * w + i / 4 % w = i / 4 ∧
      4 * (i / 4) + i % 4 = i ∧ i / 4 < w * h := by
  have hk : i / 4 < w * h := by omega
  have hw : 0 < w := by
    rcases Nat.eq_zero_or_pos w with h0 | h0
    · rw [h0, Nat.zero_mul] at hk; omega
    · exact h0
  refine ⟨Nat.mod_lt _ hw, ?_, ?_, by omega, hk⟩
  · rw [Nat.div_lt_iff_lt_mul hw, Nat.mul_comm]
    exact hk
  · rw [Nat.mul_comm]
    exact Nat.div_add_mod _ _

theorem getD_alpha_channel (img : Image) (ho : img.Solid) (k : Nat)
    (hk : k < img.width * img.height) : img.data.getD (4 * k + 3) 0 = 255 := by
  rw [List.getD_eq_getElem?_getD, ho k hk]
  rfl

theorem getD_of_alpha_index (img : Image) (ho : img.Solid) (i : Nat)
    (hi : i < 4 * (img.width * img.height)) (h3 : i % 4 = 3) : img.data.getD i 0 = 255 := by
  have := getD_alpha_channel img ho (i / 4) (by omega)
  have he : 4 * (i / 4) + 3 = i := by omega
  rw [he] at this
  exact this

theorem createOverlayBase_frame (p : Page) :
    (createOverlayBase p).originalImageSrc = p.originalImageSrc ∧
    (createOverlayBase p).segmentedImageSrcCBAM = p.segmentedImageSrcCBAM ∧
    (createOverlayBase p).currentOpacity = p.currentOpacity := by
  unfold createOverlayBase
  split <;> exact ⟨rfl, rfl, rfl⟩

theorem createOverlayCBAM_baseUnetImage (p : Page) :
    (createOverlayCBAM p).baseUnetImage = p.baseUnetImage := by
  unfold createOverlayCBAM
  split <;> rfl

theorem getElem?_alpha_of_pixelAt (d : List Nat) (k r g b a : Nat)
    (h : pixelAt d k = some (r, g, b, a)) : d[4 * k + 3]? = some a := by
  unfold pixelAt at h
  split at h
  · rename_i r1 g1 b1 a1 hr hg hb ha
    simp only [Option.some.injEq, Prod.mk.injEq] at h
    rw [ha, h.2.2.2]
  · exact absurd h (by simp)

theorem roundDiv_mul_self (x d : Nat) (hd : 0 < d) : roundDiv (x * d) d = x := by
  unfold roundDiv
  have h : 2 * (x * d) + d = d + 2 * d * x := by ring
  rw [h, Nat.add_mul_div_left _ _ (by omega : 0 < 2 * d)]
  have : d / (2 * d) = 0 := Nat.div_eq_of_lt (by omega)
  omega

theorem roundDiv_mul_left (k n d : Nat) (hk : 0 < k) : roundDiv (k * n) (k * d) = roundDiv n d := by
  unfold roundDiv
  have h1 : 2 * (k * n) + k * d = k * (2 * n + d) := by ring
  have h2 : 2 * (k * d) = k * (2 * d) := by ring
  rw [h1, h2, Nat.mul_div_mul_left _ _ hk]

theorem roundDiv_bounds (n d : Nat) (hd : 0 < d) :
    2 * d * roundDiv n d ≤ 2 * n + d ∧ 2 * n + d < 2 * d * roundDiv n d + 2 * d := by
  unfold roundDiv
  have hpos : 0 < 2 * d := by omega
  have h1 := Nat.div_add_mod (2 * n + d) (2 * d)
  have h2 := Nat.mod_lt (2 * n + d) hpos
  generalize (2 * n + d) / (2 * d) = q at *
  generalize (2 * n + d) % (2 * d) = r at *
  constructor <;> omega

/-- A channel of the bitmap where the image covers it. -/
theorem compositeChannel_covered (ga : Nat) (img : Image) (c : Canvas) (i : Nat)
    (hw : c.width = img.width) (hi : i < 4 * (img.width * img.height)) :
    compositeChannel ga img c i =
      if i % 4 = 3 then
        roundDiv (255 * (img.data.getD (4 * (i / 4) + 3) 0 * ga) +
          c.data.getD i 0 * (25500 - img.data.getD (4 * (i / 4) + 3) 0 * ga)) 25500
      else
        roundDiv (img.data.getD i 0 * (img.data.getD (4 * (i / 4) + 3) 0 * ga) +
          c.data.getD i 0 * (25500 - img.data.getD (4 * (i / 4) + 3) 0 * ga)) 25500 := by
  obtain ⟨hx, hy, hj, hc, _⟩ := pixel_index img.width img.height i hi
  unfold compositeChannel
  simp only [hw]
  rw [if_pos ⟨hx, hy⟩, hj, hc]

theorem getElem?_drawImage (ga : Nat) (img : Image) (c : Canvas) (i : Nat)
    (hi : i < 4 * (c.width * c.height)) :
    (drawImage ga img c).data[i]? = some (compositeChannel ga img c i) := by
  unfold drawImage
  simp only [List.getElem?_map, List.getElem?_range hi, Option.map_some']

theorem length_drawImage (ga : Nat) (img : Image) (c : Canvas) :
    (drawImage ga img c).data.length = 4 * (c.width * c.height) := by
  unfold drawImage
  simp

theorem getElem?_getImageData (c : Canvas) (i : Nat) (hi : i < 4 * (c.width * c.height)) :
    c.getImageData[i]? = some
      (if i % 4 = 3 then c.data.getD (4 * (i / 4) + 3) 0
      else if c.data.getD (4 * (i / 4) + 3) 0 = 0 then 0
      else roundDiv (c.data.getD i 0 * 255) (c.data.getD (4 * (i / 4) + 3) 0)) := by
  unfold Canvas.getImageData
  simp only [List.getElem?_map, List.getElem?_range hi, Option.map_some']

theorem length_getImageData (c : Canvas) : c.getImageData.length = 4 * (c.width * c.height) := by
  unfold Canvas.getImageData
  simp

theorem length_readPixels (img : Image) :
    (readPixels img).length = 4 * (img.width * img.height) := by
  unfold readPixels
  rw [length_getImageData]
  rfl

/-- A bitmap whose pixels all have alpha 255 is read back as it is. -/
theorem getImageData_of_solid (c : Canvas) (hl : c.data.length = 4 * (c.width * c.height))
    (ha : ∀ k, k < c.width * c.height → c.data[4 * k + 3]? = some 255) :
    c.getImageData = c.data := by
  apply List.ext_getElem?
  intro i
  by_cases hi : i < 4 * (c.width * c.height)
  · rw [getElem?_getImageData c i hi]
    have hk : i / 4 < c.width * c.height := by omega
    have hlt : i < c.data.length := by omega
    have h255 : c.data.getD (4 * (i / 4) + 3) 0 = 255 := by
      rw [List.getD_eq_getElem?_getD, ha (i / 4) hk]
      rfl
    have hgd : c.data.getD i 0 = c.data[i] := by
      rw [List.getD_eq_getElem?_getD, List.getElem?_eq_getElem hlt]
      rfl
    rw [h255, List.getElem?_eq_getElem hlt]
    by_cases h3 : i % 4 = 3
    · rw [if_pos h3]
      have he : 4 * (i / 4) + 3 = i := by omega
      rw [he, hgd] at h255
      rw [h255]
    · rw [if_neg h3, if_neg (by norm_num), roundDiv_mul_self _ 255 (by norm_num), hgd]
  · rw [List.getElem?_eq_none (by rw [length_getImageData]; omega),
      List.getElem?_eq_none (by omega)]

/-- An image whose pixels all have alpha 255, drawn with global alpha 1 on a
cleared canvas of its size, gives the image. -/
theorem drawImage_create (img : Image) (hwf : img.WellFormed) (ho : img.Solid) :
    drawImage 100 img (Canvas.create img.width img.height) =
      { width := img.width, height := img.height, data := img.data } := by
  have hdata : (drawImage 100 img (Canvas.create img.width img.height)).data = img.data := by
    apply List.ext_getElem?
    intro i
    by_cases hi : i < 4 * (img.width * img.height)
    · rw [getElem?_drawImage 100 img _ i hi, compositeChannel_covered 100 img _ i rfl hi]
      have hk : i / 4 < img.width * img.height := by omega
      have hlt : i < img.data.length := by rw [hwf]; exact hi
      rw [getD_alpha_channel img ho (i / 4) hk]
      have hz : (Canvas.create img.width img.height).data.getD i 0 = 0 := by
        simp only [Canvas.create, List.getD_eq_getElem?_getD, List.getElem?_replicate]
        split <;> rfl
      rw [hz, List.getElem?_eq_getElem hlt]
      have hgd : img.data.getD i 0 = img.data[i] := by
        rw [List.getD_eq_getElem?_getD, List.getElem?_eq_getElem hlt]
        rfl
      by_cases h3 : i % 4 = 3
      · rw [if_pos h3]
        have := getD_of_alpha_index img ho i hi h3
        rw [hgd] at this
        rw [this, Nat.zero_mul, Nat.add_zero, show 255 * 100 = 25500 from rfl,
          roundDiv_mul_self 255 25500 (by norm_num)]
      · rw [if_neg h3, hgd, Nat.zero_mul, Nat.add_zero, show 255 * 100 = 25500 from rfl,
          roundDiv_mul_self _ 25500 (by norm_num)]
    · have h1 : (drawImage 100 img (Canvas.create img.width img.height)).data.length ≤ i := by
        rw [length_drawImage]
        simp only [Canvas.create]
        omega
      have h2 : img.data.length ≤ i := by
        rw [hwf]
        omega
      rw [List.getElem?_eq_none h1, List.getElem?_eq_none h2]
  unfold drawImage at *
  simp only [Canvas.create] at *
  rw [hdata]

/-- The loop reads an image whose pixels all have alpha 255 as it is. -/
theorem readPixels_of_solid (img : Image) (hwf : img.WellFormed) (ho : img.Solid) :
    readPixels img = img.data := by
  unfold readPixels
  rw [drawImage_create img hwf ho]
  exact getImageData_of_solid _ hwf ho

/-! ## C6, C7: cached results and replaced images -/

/-- C6, the code at the failing input: after a black pixel has been processed,
a white pixel is uploaded and decoded; `originalImageSrc` is the white pixel but
both cached results are still the ones of the black pixel, and the segmented
view shows the red pixel made from the black one. -/
theorem replaced_image_keeps_results :
    ∃ q, run Page.initial replaceAfterProcessing = some q ∧
      q.selectedFile = some whitePng ∧
      q.originalImageSrc = Src.dataURL (some whitePixel) ∧
      q.segmentedImageSrcBase = Src.dataURL (some { width := 1, height := 1, data := [255, 0, 0, 255] }) ∧
      q.segmentedImageSrcCBAM = Src.dataURL (some { width := 1, height := 1, data := [0, 0, 255, 255] }) ∧
      q.segmentedImageSrcBase ≠ Src.empty ∧ q.segmentedImageSrcCBAM ≠ Src.empty ∧
      (Option.map Page.previewImage (step q (Event.selectView View.segmented))) =
        some (Shown.src (Src.dataURL (some { width := 1, height := 1, data := [255, 0, 0, 255] }))) := by
  refine ⟨_, rfl, ?_⟩
  decide

/-- C7, counterexample: the 'cbamNet' generation started on the black pixel
completes after the white pixel has replaced it; its result, the blue pixel made
from the black one, is stored in `segmentedImageSrcCBAM`, although the
segmentation of the current image is a white pixel. -/
theorem stale_generation_publishes :
    ∃ q, run Page.initial replaceWhilePending = some q ∧
      q.originalImageSrc = Src.dataURL (some whitePixel) ∧
      q.segmentedImageSrcCBAM = Src.dataURL (some { width := 1, height := 1, data := [0, 0, 255, 255] }) ∧
      segmentData ModelType.cbamNet blackPixel.data = some [0, 0, 255, 255] ∧
      segmentData ModelType.cbamNet whitePixel.data = some [255, 255, 255, 255] := by
  refine ⟨_, rfl, ?_⟩
  decide

theorem storeResult_fields (m : ModelType) (r : Src) (p : Page) :
    (m = ModelType.baseUnet →
      (storeResult m r p).segmentedImageSrcBase = r ∧
      (storeResult m r p).segmentedImageSrcCBAM = p.segmentedImageSrcCBAM) ∧
    (m ≠ ModelType.baseUnet →
      (storeResult m r p).segmentedImageSrcCBAM = r ∧
      (storeResult m r p).segmentedImageSrcBase = p.segmentedImageSrcBase) ∧
    (storeResult m r p).originalImageSrc = p.originalImageSrc := by
  unfold storeResult
  by_cases h : m = ModelType.baseUnet
  · simp [h]
  · simp [h]

/-- C7, amended: the completion of a generation always publishes its result.
Whatever `originalImageSrc` is by then, when the image element of
`generateSegmentedImage(m)` has loaded the raster `img` it was started on,
the segmentation of the pixels of `img` is stored in `segmentedImageSrcBase` if
`m` is 'baseUnet' and in `segmentedImageSrcCBAM` otherwise; the other cached
result and `originalImageSrc` are left as they are.  There is no check that
`img` is still the current image. -/
theorem generationComplete_publishes (p : Page) (k : Nat) (m : ModelType) (src : Src) (img : Image)
    (hk : p.loading[k]? = some (m, src)) (hsrc : src.load = some img)
    (hpos : 0 < img.width * img.height) :
    ∃ out q, segmentData m (readPixels img) = some out ∧
      step p (Event.generationComplete k) = some q ∧
      (m = ModelType.baseUnet →
        q.segmentedImageSrcBase = Src.dataURL (some { img with data := out }) ∧
        q.segmentedImageSrcCBAM = p.segmentedImageSrcCBAM) ∧
      (m ≠ ModelType.baseUnet →
        q.segmentedImageSrcCBAM = Src.dataURL (some { img with data := out }) ∧
        q.segmentedImageSrcBase = p.segmentedImageSrcBase) ∧
      q.originalImageSrc = p.originalImageSrc := by
  obtain ⟨out, hout, _, _⟩ :=
    segmentData_spec m (readPixels img) (img.width * img.height) (length_readPixels img)
  have hne : ¬ img.width * img.height = 0 := by omega
  refine ⟨out, storeResult m (Src.dataURL (some { img with data := out }))
    { p with loading := p.loading.eraseIdx k }, hout, ?_, ?_⟩
  · simp only [step, hk, hsrc, generateSegmentedImageOnload, hout, if_neg hne]
  · exact storeResult_fields m _ _

/-- C7, witness: the pending page, whose current image is the white pixel
while the loading image is the black one. -/
theorem generationComplete_publishes_witness :
    pendingPage.loading[0]? = some (ModelType.cbamNet, Src.dataURL (some blackPixel)) ∧
    (Src.dataURL (some blackPixel)).load = some blackPixel ∧
    0 < blackPixel.width * blackPixel.height ∧
    pendingPage.originalImageSrc = Src.dataURL (some whitePixel) ∧
    ∃ out q, segmentData ModelType.cbamNet (readPixels blackPixel) = some out ∧
      step pendingPage (Event.generationComplete 0) = some q ∧
      (ModelType.cbamNet = ModelType.baseUnet →
        q.segmentedImageSrcBase = Src.dataURL (some { blackPixel with data := out }) ∧
        q.segmentedImageSrcCBAM = pendingPage.segmentedImageSrcCBAM) ∧
      (ModelType.cbamNet ≠ ModelType.baseUnet →
        q.segmentedImageSrcCBAM = Src.dataURL (some { blackPixel with data := out }) ∧
        q.segmentedImageSrcBase = pendingPage.segmentedImageSrcBase) ∧
      q.originalImageSrc = pendingPage.originalImageSrc :=
  ⟨by decide, by decide, by decide, by decide,
    generationComplete_publishes pendingPage 0 ModelType.cbamNet (Src.dataURL (some blackPixel))
      blackPixel (by decide) (by decide) (by decide)⟩

/-! ## C8, C9: the original and the segmented view -/

/-- C8: with `currentView = 'original'`, `updatePreview` shows the original
image in every slot of the layout, whatever `currentModel` and `currentOpacity`
are: `previewImage` in the single layout, `baseUnetImage` and `cbamNetImage`
in the compare layout. -/
theorem updatePreview_original (p : Page) (h : p.currentView = View.original) :
    (p.currentDisplayMode = DisplayMode.single →
      (updatePreview p).previewImage = Shown.src p.originalImageSrc) ∧
    (p.currentDisplayMode = DisplayMode.compare →
      (updatePreview p).baseUnetImage = Shown.src p.originalImageSrc ∧
      (updatePreview p).cbamNetImage = Shown.src p.originalImageSrc) := by
  constructor
  · intro hd
    simp [updatePreview, h, hd]
  · intro hd
    simp [updatePreview, h, hd]

/-- C8, witness: the page after the black pixel has been decoded. -/
theorem updatePreview_original_witness :
    (readerOnload blackPng (handleFiles blackPng Page.initial)).currentView = View.original ∧
    (updatePreview (readerOnload blackPng (handleFiles blackPng Page.initial))).previewImage =
      Shown.src (Src.dataURL (some blackPixel)) :=
  ⟨by decide,
    ((updatePreview_original (readerOnload blackPng (handleFiles blackPng Page.initial))
      (by decide)).1 (by decide)).trans (by decide)⟩

/-- C9: with `currentView = 'segmented'`, `updatePreview` shows the cached
results: in the single layout `previewImage` shows `segmentedImageSrcBase` when
`currentModel` is 'baseUnet' and `segmentedImageSrcCBAM` when it is 'cbamNet';
in the compare layout `baseUnetImage` shows `segmentedImageSrcBase` and
`cbamNetImage` shows `segmentedImageSrcCBAM`, whatever `currentModel` and
`currentOpacity` are. -/
theorem updatePreview_segmented (p : Page) (h : p.currentView = View.segmented) :
    (p.currentDisplayMode = DisplayMode.single → p.currentModel = ModelType.baseUnet →
      (updatePreview p).previewImage = Shown.src p.segmentedImageSrcBase) ∧
    (p.currentDisplayMode = DisplayMode.single → p.currentModel = ModelType.cbamNet →
      (updatePreview p).previewImage = Shown.src p.segmentedImageSrcCBAM) ∧
    (p.currentDisplayMode = DisplayMode.compare →
      (updatePreview p).baseUnetImage = Shown.src p.segmentedImageSrcBase ∧
      (updatePreview p).cbamNetImage = Shown.src p.segmentedImageSrcCBAM) := by
  refine ⟨?_, ?_, ?_⟩
  · intro hd hm
    simp [updatePreview, h, hd, currentModelSrc, hm]
  · intro hd hm
    simp [updatePreview, h, hd, currentModelSrc, hm]
  · intro hd
    simp [updatePreview, h, hd]

/-- C9, witness: the compare layout, segmented view, with two different cached
results. -/
theorem updatePreview_segmented_witness :
    ({ Page.initial with
        currentView := View.segmented
        currentDisplayMode := DisplayMode.compare
        segmentedImageSrcBase := Src.dataURL (some blackPixel)
        segmentedImageSrcCBAM := Src.dataURL (some whitePixel) } : Page).currentView = View.segmented ∧
    (updatePreview { Page.initial with
        currentView := View.segmented
        currentDisplayMode := DisplayMode.compare
        segmentedImageSrcBase := Src.dataURL (some blackPixel)
        segmentedImageSrcCBAM := Src.dataURL (some whitePixel) }).cbamNetImage =
      Shown.src (Src.dataURL (some whitePixel)) :=
  ⟨by decide,
    ((updatePreview_segmented { Page.initial with
        currentView := View.segmented
        currentDisplayMode := DisplayMode.compare
        segmentedImageSrcBase := Src.dataURL (some blackPixel)
        segmentedImageSrcCBAM := Src.dataURL (some whitePixel) } (by decide)).2.2 (by decide)).2.trans
      (by decide)⟩

/-! ## C10: the overlay -/

theorem setGlobalAlpha_percent (opacity : Nat) (h : opacity ≤ 100) :
    setGlobalAlpha 100 opacity = opacity := by
  unfold setGlobalAlpha
  rw [if_pos h]

/-- A channel of the overlay bitmap of two rasters of the same size whose
pixels all have alpha 255. -/
theorem getElem?_overlayCanvas (opacity : Nat) (originalImg segmentedImg : Image)
    (hop : opacity ≤ 100) (hwf : originalImg.WellFormed) (ho : originalImg.Solid)
    (hso : segmentedImg.Solid)
    (hw : segmentedImg.width = originalImg.width) (hh : segmentedImg.height = originalImg.height)
    (i : Nat) (hi : i < 4 * (originalImg.width * originalImg.height)) :
    (overlayCanvas opacity originalImg segmentedImg).data[i]? =
      some (roundDiv (originalImg.data.getD i 0 * (100 - opacity) +
        segmentedImg.data.getD i 0 * opacity) 100) := by
  have hi2 : i < 4 * (segmentedImg.width * segmentedImg.height) := by rw [hw, hh]; exact hi
  unfold overlayCanvas
  simp only
  rw [drawImage_create originalImg hwf ho, setGlobalAlpha_percent opacity hop,
    getElem?_drawImage opacity segmentedImg _ i hi,
    compositeChannel_covered opacity segmentedImg _ i hw.symm hi2,
    getD_alpha_channel segmentedImg hso (i / 4) (by omega)]
  have hsub : 25500 - 255 * opacity = 255 * (100 - opacity) := by omega
  rw [hsub]
  congr 1
  by_cases h3 : i % 4 = 3
  · rw [if_pos h3, getD_of_alpha_index originalImg ho i hi h3,
      getD_of_alpha_index segmentedImg hso i hi2 h3]
    have e1 : 255 * (255 * opacity) + 255 * (255 * (100 - opacity)) =
        255 * (255 * (100 - opacity) + 255 * opacity) := by ring
    rw [e1, show (25500 : Nat) = 255 * 100 from rfl, roundDiv_mul_left _ _ _ (by norm_num)]
  · rw [if_neg h3]
    have e1 : segmentedImg.data.getD i 0 * (255 * opacity) +
        originalImg.data.getD i 0 * (255 * (100 - opacity)) =
        255 * (originalImg.data.getD i 0 * (100 - opacity) +
          segmentedImg.data.getD i 0 * opacity) := by ring
    rw [e1, show (25500 : Nat) = 255 * 100 from rfl, roundDiv_mul_left _ _ _ (by norm_num)]

theorem roundDiv_blend_solid (opacity : Nat) (hop : opacity ≤ 100) :
    roundDiv (255 * (100 - opacity) + 255 * opacity) 100 = 255 := by
  have : 255 * (100 - opacity) + 255 * opacity = 255 * 100 := by omega
  rw [this, roundDiv_mul_self 255 100 (by norm_num)]

theorem roundDiv_within_half (o s opacity : Nat) (hop : opacity ≤ 100) :
    |((roundDiv (o * (100 - opacity) + s * opacity) 100 : Nat) : ℚ) -
      ((o : ℚ) * (1 - (opacity : ℚ) / 100) + (s : ℚ) * ((opacity : ℚ) / 100))| ≤ 1 / 2 := by
  obtain ⟨h1, h2⟩ := roundDiv_bounds (o * (100 - opacity) + s * opacity) 100 (by norm_num)
  generalize roundDiv (o * (100 - opacity) + s * opacity) 100 = d at *
  have c1 : ((2 * 100 * d : Nat) : ℚ) ≤ ((2 * (o * (100 - opacity) + s * opacity) + 100 : Nat) : ℚ) := by
    exact_mod_cast h1
  have c2 : ((2 * (o * (100 - opacity) + s * opacity) + 100 : Nat) : ℚ) <
      ((2 * 100 * d + 2 * 100 : Nat) : ℚ) := by
    exact_mod_cast h2
  push_cast [Nat.cast_sub hop] at c1 c2
  rw [abs_le]
  constructor <;> linarith

/-- The overlay canvas of two rasters of the same size whose pixels all have
alpha 255 shows their blend, rounded to 8 bits. -/
theorem overlayCanvas_isBlend (opacity : Nat) (originalImg segmentedImg : Image)
    (hop : opacity ≤ 100) (hwf : originalImg.WellFormed) (ho : originalImg.Solid)
    (hswf : segmentedImg.WellFormed) (hso : segmentedImg.Solid)
    (hw : segmentedImg.width = originalImg.width) (hh : segmentedImg.height = originalImg.height) :
    IsBlend opacity originalImg segmentedImg (overlayCanvas opacity originalImg segmentedImg) := by
  have hch := getElem?_overlayCanvas opacity originalImg segmentedImg hop hwf ho hso hw hh
  have hwd : (overlayCanvas opacity originalImg segmentedImg).width = originalImg.width := rfl
  have hht : (overlayCanvas opacity originalImg segmentedImg).height = originalImg.height := rfl
  have hlen : (overlayCanvas opacity originalImg segmentedImg).data.length =
      4 * (originalImg.width * originalImg.height) := by
    unfold overlayCanvas
    simp only
    rw [length_drawImage]
    rfl
  have hread : (overlayCanvas opacity originalImg segmentedImg).getImageData =
      (overlayCanvas opacity originalImg segmentedImg).data := by
    apply getImageData_of_solid _ (by rw [hlen, hwd, hht])
    intro k hk
    rw [hwd, hht] at hk
    rw [hch (4 * k + 3) (by omega), getD_alpha_channel originalImg ho k hk,
      getD_alpha_channel segmentedImg hso k (by rw [hw, hh]; exact hk),
      roundDiv_blend_solid opacity hop]
  refine ⟨hwd, hht, ?_, ?_, ?_⟩
  · intro i hi
    exact ⟨_, by rw [hread]; exact hch i hi, rfl, roundDiv_within_half _ _ opacity hop⟩
  · intro h0
    rw [hread]
    apply List.ext_getElem?
    intro i
    by_cases hi : i < 4 * (originalImg.width * originalImg.height)
    · have hlt : i < originalImg.data.length := by rw [hwf]; exact hi
      rw [hch i hi, h0, Nat.mul_zero, Nat.add_zero, roundDiv_mul_self _ 100 (by norm_num),
        List.getD_eq_getElem?_getD, List.getElem?_eq_getElem hlt]
      rfl
    · rw [List.getElem?_eq_none (by omega), List.getElem?_eq_none (by rw [hwf]; omega)]
  · intro h100
    rw [hread]
    apply List.ext_getElem?
    intro i
    by_cases hi : i < 4 * (originalImg.width * originalImg.height)
    · have hlt : i < segmentedImg.data.length := by rw [hswf, hw, hh]; exact hi
      rw [hch i hi, h100, Nat.sub_self, Nat.mul_zero, Nat.zero_add,
        roundDiv_mul_self _ 100 (by norm_num), List.getD_eq_getElem?_getD,
        List.getElem?_eq_getElem hlt]
      rfl
    · rw [List.getElem?_eq_none (by omega), List.getElem?_eq_none (by rw [hswf, hw, hh]; omega)]

/-- Every result of `generateSegmentedImage` is a well-formed raster of the
size of its input in which every pixel has alpha 255. -/
theorem segmentData_solid (m : ModelType) (img : Image) (out : List Nat)
    (h : segmentData m (readPixels img) = some out) :
    ({ img with data := out } : Image).WellFormed ∧ ({ img with data := out } : Image).Solid := by
  obtain ⟨out2, hout, hl, hpx⟩ :=
    segmentData_spec m (readPixels img) (img.width * img.height) (length_readPixels img)
  rw [h] at hout
  have he : out = out2 := Option.some.inj hout
  subst he
  have hlen := length_readPixels img
  refine ⟨by unfold Image.WellFormed; rw [hl]; exact hlen, ?_⟩
  intro k hk
  have hk2 : k < img.width * img.height := hk
  have h0 : 4 * k < (readPixels img).length := by omega
  have h1 : 4 * k + 1 < (readPixels img).length := by omega
  have h2 : 4 * k + 2 < (readPixels img).length := by omega
  have h3 : 4 * k + 3 < (readPixels img).length := by omega
  have hin : pixelAt (readPixels img) k =
      some ((readPixels img)[4 * k], (readPixels img)[4 * k + 1], (readPixels img)[4 * k + 2],
        (readPixels img)[4 * k + 3]) := by
    unfold pixelAt
    rw [List.getElem?_eq_getElem h0, List.getElem?_eq_getElem h1, List.getElem?_eq_getElem h2,
      List.getElem?_eq_getElem h3]
  have hp := hpx k _ _ _ _ hin
  have ha : (paintedPixel m (readPixels img)[4 * k] (readPixels img)[4 * k + 1]
      (readPixels img)[4 * k + 2]).2.2.2 = 255 := by
    unfold paintedPixel
    split <;> rfl
  have hq : pixelAt out k = some
      ((paintedPixel m (readPixels img)[4 * k] (readPixels img)[4 * k + 1]
          (readPixels img)[4 * k + 2]).1,
        (paintedPixel m (readPixels img)[4 * k] (readPixels img)[4 * k + 1]
          (readPixels img)[4 * k + 2]).2.1,
        (paintedPixel m (readPixels img)[4 * k] (readPixels img)[4 * k + 1]
          (readPixels img)[4 * k + 2]).2.2.1, 255) := by
    rw [hp, ← ha]
  exact getElem?_alpha_of_pixelAt out k _ _ _ 255 hq

/-- C10, counterexample: the black pixel under its red result at opacity 50
shows the red channel 128, an 8-bit value, not `0 * (1 - a) + 255 * a = 255/2`;
and after the black pixel has been replaced by the white pair, the overlay at
opacity 100 of the pair with the cached result of the black pixel shows two
pixels, not the cached result. -/
theorem overlay_not_exact_blend :
    (createOverlayImage overlayPage).previewImage =
      Shown.canvas (overlayCanvas 50 blackPixel redPixel) ∧
    (overlayCanvas 50 blackPixel redPixel).getImageData = [128, 0, 0, 255] ∧
    ((128 : Nat) : ℚ) ≠ ((0 : Nat) : ℚ) * (1 - 50 / 100) + ((255 : Nat) : ℚ) * (50 / 100) ∧
    ∃ q, run Page.initial replaceThenOverlay = some q ∧
      q.originalImageSrc = Src.dataURL (some whitePair) ∧ q.currentOpacity = 100 ∧
      currentModelSrc q = Src.dataURL (some redPixel) ∧
      q.previewImage = Shown.canvas (overlayCanvas 100 whitePair redPixel) ∧
      (overlayCanvas 100 whitePair redPixel).getImageData = [255, 0, 0, 255, 255, 255, 255, 255] ∧
      (overlayCanvas 100 whitePair redPixel).getImageData ≠ redPixel.data := by
  refine ⟨by decide, by decide, by norm_num, _, rfl, ?_⟩
  decide

/-- C10, amended: in overlay mode, for a fully opaque original, an opacity of
at most 100 and a cached result that is an opaque raster of the size of the
original (as `generateSegmentedImage` makes it from that original), the canvas
shown by `createOverlayImage` and in each of the two slots of
`createOverlayImageForComparison` holds the blend rounded to 8 bits: with
`a = currentOpacity / 100` every channel shown is the nearest integer to
`original * (1 - a) + segmented * a`, hence within `1/2` of it; opacity 0 gives
the original unchanged and opacity 100 gives exactly the cached result, white
background included. -/
theorem overlay_is_blend (p : Page) (originalImg : Image)
    (hload : p.originalImageSrc.load = some originalImg)
    (hwf : originalImg.WellFormed) (ho : originalImg.Solid) (hop : p.currentOpacity ≤ 100) :
    (∀ segmentedImg, (currentModelSrc p).load = some segmentedImg →
      segmentedImg.WellFormed → segmentedImg.Solid →
      segmentedImg.width = originalImg.width → segmentedImg.height = originalImg.height →
      ∃ c, (createOverlayImage p).previewImage = Shown.canvas c ∧
        IsBlend p.currentOpacity originalImg segmentedImg c) ∧
    (∀ segmentedImg1, p.segmentedImageSrcBase.load = some segmentedImg1 →
      segmentedImg1.WellFormed → segmentedImg1.Solid →
      segmentedImg1.width = originalImg.width → segmentedImg1.height = originalImg.height →
      ∃ c, (createOverlayImageForComparison p).baseUnetImage = Shown.canvas c ∧
        IsBlend p.currentOpacity originalImg segmentedImg1 c) ∧
    (∀ segmentedImg2, p.segmentedImageSrcCBAM.load = some segmentedImg2 →
      segmentedImg2.WellFormed → segmentedImg2.Solid →
      segmentedImg2.width = originalImg.width → segmentedImg2.height = originalImg.height →
      ∃ c, (createOverlayImageForComparison p).cbamNetImage = Shown.canvas c ∧
        IsBlend p.currentOpacity originalImg segmentedImg2 c) := by
  refine ⟨?_, ?_, ?_⟩
  · intro seg hs hswf hso hw hh
    refine ⟨_, ?_, overlayCanvas_isBlend p.currentOpacity originalImg seg hop hwf ho hswf hso hw hh⟩
    unfold createOverlayImage
    rw [hload, hs]
  · intro seg hs hswf hso hw hh
    refine ⟨_, ?_, overlayCanvas_isBlend p.currentOpacity originalImg seg hop hwf ho hswf hso hw hh⟩
    unfold createOverlayImageForComparison
    rw [createOverlayCBAM_baseUnetImage]
    unfold createOverlayBase
    rw [hload, hs]
  · intro seg hs hswf hso hw hh
    refine ⟨_, ?_, overlayCanvas_isBlend p.currentOpacity originalImg seg hop hwf ho hswf hso hw hh⟩
    obtain ⟨h1, h2, h3⟩ := createOverlayBase_frame p
    unfold createOverlayImageForComparison createOverlayCBAM
    rw [h1, h2, h3, hload, hs]

/-- C10, witness: the black pixel under its red result at opacity 50. -/
theorem overlay_is_blend_witness :
    overlayPage.originalImageSrc.load = some blackPixel ∧ blackPixel.WellFormed ∧
    blackPixel.Solid ∧ overlayPage.currentOpacity ≤ 100 ∧
    ∃ c, (createOverlayImage overlayPage).previewImage = Shown.canvas c ∧
      IsBlend overlayPage.currentOpacity blackPixel redPixel c :=
  ⟨by decide, by unfold Image.WellFormed; decide, by unfold Image.Solid; decide, by decide,
    (overlay_is_blend overlayPage blackPixel (by decide) (by unfold Image.WellFormed; decide)
      (by unfold Image.Solid; decide) (by decide)).1 redPixel (by decide)
      (by unfold Image.WellFormed; decide) (by unfold Image.Solid; decide) (by decide) (by decide)⟩

/-! ## C11: the preview does not touch the page variables -/

theorem createOverlayImage_eq (p : Page) :
    createOverlayImage p = { p with previewImage := (createOverlayImage p).previewImage } := by
  unfold createOverlayImage
  split <;> rfl

theorem createOverlayBase_eq (p : Page) :
    createOverlayBase p = { p with baseUnetImage := (createOverlayBase p).baseUnetImage } := by
  unfold createOverlayBase
  split <;> rfl

theorem createOverlayCBAM_eq (p : Page) :
    createOverlayCBAM p = { p with cbamNetImage := (createOverlayCBAM p).cbamNetImage } := by
  unfold createOverlayCBAM
  split <;> rfl

theorem createOverlayImageForComparison_eq (p : Page) :
    createOverlayImageForComparison p =
      { p with
        baseUnetImage := (createOverlayImageForComparison p).baseUnetImage
        cbamNetImage := (createOverlayImageForComparison p).cbamNetImage } := by
  unfold createOverlayImageForComparison
  rw [createOverlayCBAM_eq (createOverlayBase p), createOverlayBase_eq p]

theorem createOverlayImage_idem (p : Page) :
    createOverlayImage (createOverlayImage p) = createOverlayImage p := by
  obtain ⟨sf, cv, cm, dm, o, sb, sc, op, pi, bi, ci, al, rd, tm, ld⟩ := p
  cases ho : o.load <;> cases hs : (if cm = ModelType.baseUnet then sb else sc).load <;>
    simp [createOverlayImage, currentModelSrc, ho, hs]

theorem createOverlayBase_idem (p : Page) :
    createOverlayBase (createOverlayBase p) = createOverlayBase p := by
  unfold createOverlayBase
  cases ho : p.originalImageSrc.load <;> cases hs : p.segmentedImageSrcBase.load
  · simp [ho, hs]
  · simp [ho, hs]
  · simp [ho, hs]
  · simp [ho, hs]

theorem createOverlayCBAM_idem (p : Page) :
    createOverlayCBAM (createOverlayCBAM p) = createOverlayCBAM p := by
  unfold createOverlayCBAM
  cases ho : p.originalImageSrc.load <;> cases hs : p.segmentedImageSrcCBAM.load
  · simp [ho, hs]
  · simp [ho, hs]
  · simp [ho, hs]
  · simp [ho, hs]

theorem createOverlay_comm (p : Page) :
    createOverlayBase (createOverlayCBAM p) = createOverlayCBAM (createOverlayBase p) := by
  unfold createOverlayBase createOverlayCBAM
  cases ho : p.originalImageSrc.load <;> cases hb : p.segmentedImageSrcBase.load <;>
    cases hc : p.segmentedImageSrcCBAM.load <;> simp [ho, hb, hc]

theorem createOverlayImageForComparison_idem (p : Page) :
    createOverlayImageForComparison (createOverlayImageForComparison p) =
      createOverlayImageForComparison p := by
  unfold createOverlayImageForComparison
  rw [createOverlay_comm (createOverlayBase p), createOverlayBase_idem, createOverlayCBAM_idem]

/-- C11: in every view state `updatePreview`, `createOverlayImage` and
`createOverlayImageForComparison` change nothing but the images shown:
`originalImageSrc`, both cached results, `currentView`, `currentModel`,
`currentDisplayMode` and `currentOpacity` (and `selectedFile`) are as before;
and `updatePreview` called twice leaves the page, the images shown included,
as `updatePreview` called once does. -/
theorem updatePreview_frame (p : Page) :
    (∃ a b c, updatePreview p = { p with previewImage := a, baseUnetImage := b, cbamNetImage := c }) ∧
    (∃ a, createOverlayImage p = { p with previewImage := a }) ∧
    (∃ b c, createOverlayImageForComparison p = { p with baseUnetImage := b, cbamNetImage := c }) ∧
    ((updatePreview p).originalImageSrc = p.originalImageSrc ∧
      (updatePreview p).segmentedImageSrcBase = p.segmentedImageSrcBase ∧
      (updatePreview p).segmentedImageSrcCBAM = p.segmentedImageSrcCBAM ∧
      (updatePreview p).currentView = p.currentView ∧
      (updatePreview p).currentModel = p.currentModel ∧
      (updatePreview p).currentDisplayMode = p.currentDisplayMode ∧
      (updatePreview p).currentOpacity = p.currentOpacity ∧
      (updatePreview p).selectedFile = p.selectedFile) ∧
    updatePreview (updatePreview p) = updatePreview p := by
  have hframe : ∃ a b c, updatePreview p =
      { p with previewImage := a, baseUnetImage := b, cbamNetImage := c } := by
    cases hd : p.currentDisplayMode <;> cases hv : p.currentView
    · exact ⟨Shown.src p.originalImageSrc, p.baseUnetImage, p.cbamNetImage, by
        simp [updatePreview, hd, hv]⟩
    · exact ⟨Shown.src (currentModelSrc p), p.baseUnetImage, p.cbamNetImage, by
        simp [updatePreview, hd, hv]⟩
    · exact ⟨(createOverlayImage p).previewImage, p.baseUnetImage, p.cbamNetImage, by
        have h1 : updatePreview p = createOverlayImage p := by simp [updatePreview, hd, hv]
        have h2 := createOverlayImage_eq p
        rw [hd, hv] at h2
        rw [h1]
        exact h2⟩
    · exact ⟨p.previewImage, Shown.src p.originalImageSrc, Shown.src p.originalImageSrc, by
        simp [updatePreview, hd, hv]⟩
    · exact ⟨p.previewImage, Shown.src p.segmentedImageSrcBase, Shown.src p.segmentedImageSrcCBAM, by
        simp [updatePreview, hd, hv]⟩
    · exact ⟨p.previewImage, (createOverlayImageForComparison p).baseUnetImage,
        (createOverlayImageForComparison p).cbamNetImage, by
        have h1 : updatePreview p = createOverlayImageForComparison p := by
          simp [updatePreview, hd, hv]
        have h2 := createOverlayImageForComparison_eq p
        rw [hd, hv] at h2
        rw [h1]
        exact h2⟩
  refine ⟨hframe, ⟨_, createOverlayImage_eq p⟩, ⟨_, _, createOverlayImageForComparison_eq p⟩, ?_, ?_⟩
  · obtain ⟨a, b, c, h⟩ := hframe
    rw [h]
    exact ⟨rfl, rfl, rfl, rfl, rfl, rfl, rfl, rfl⟩
  · cases hd : p.currentDisplayMode <;> cases hv : p.currentView
    · simp [updatePreview, hd, hv]
    · simp [updatePreview, hd, hv, currentModelSrc]
    · have h1 : updatePreview p = createOverlayImage p := by simp [updatePreview, hd, hv]
      have h2 : updatePreview (createOverlayImage p) = createOverlayImage (createOverlayImage p) := by
        rw [createOverlayImage_eq p]
        simp [updatePreview, hd, hv]
      rw [h1, h2, createOverlayImage_idem]
    · simp [updatePreview, hd, hv]
    · simp [updatePreview, hd, hv]
    · have h1 : updatePreview p = createOverlayImageForComparison p := by
        simp [updatePreview, hd, hv]
      have h2 : updatePreview (createOverlayImageForComparison p) =
          createOverlayImageForComparison (createOverlayImageForComparison p) := by
        rw [createOverlayImageForComparison_eq p]
        simp [updatePreview, hd, hv]
      rw [h1, h2, createOverlayImageForComparison_idem]

/-! ## C13, C15, C16: white, nested and grey pixels -/

theorem pixelAt_of_lt (data : List Nat) (n k : Nat) (hlen : data.length = 4 * n) (hk : k < n) :
    ∃ r g b a, pixelAt data k = some (r, g, b, a) := by
  have h0 : 4 * k < data.length := by omega
  have h1 : 4 * k + 1 < data.length := by omega
  have h2 : 4 * k + 2 < data.length := by omega
  have h3 : 4 * k + 3 < data.length := by omega
  refine ⟨data[4 * k], data[4 * k + 1], data[4 * k + 2], data[4 * k + 3], ?_⟩
  unfold pixelAt
  rw [List.getElem?_eq_getElem h0, List.getElem?_eq_getElem h1, List.getElem?_eq_getElem h2,
    List.getElem?_eq_getElem h3]

theorem paintedPixel_white (m : ModelType) : paintedPixel m 255 255 255 = (255, 255, 255, 255) := by
  cases m <;> decide

/-- A buffer whose pixels all have R = G = B = 255 is painted white. -/
theorem segmentData_white (m : ModelType) (data : List Nat) (n : Nat)
    (hlen : data.length = 4 * n)
    (hwhite : ∀ k, k < n →
      data[4 * k]? = some 255 ∧ data[4 * k + 1]? = some 255 ∧ data[4 * k + 2]? = some 255) :
    ∃ out, segmentData m data = some out ∧ out.length = 4 * n ∧
      ∀ k, k < n → pixelAt out k = some (255, 255, 255, 255) := by
  obtain ⟨out, hout, hl, hpx⟩ := segmentData_spec m data n hlen
  refine ⟨out, hout, by rw [hl, hlen], ?_⟩
  intro k hk
  obtain ⟨hr, hg, hb⟩ := hwhite k hk
  have h3 : 4 * k + 3 < data.length := by omega
  have ha : pixelAt data k = some (255, 255, 255, data[4 * k + 3]) := by
    unfold pixelAt
    rw [hr, hg, hb, List.getElem?_eq_getElem h3]
  rw [hpx k 255 255 255 _ ha, paintedPixel_white]

theorem getD_drawImage (ga : Nat) (img : Image) (c : Canvas) (i : Nat)
    (hi : i < 4 * (c.width * c.height)) :
    (drawImage ga img c).data.getD i 0 = compositeChannel ga img c i := by
  rw [List.getD_eq_getElem?_getD, getElem?_drawImage ga img c i hi]
  rfl

/-- A white pixel of alpha `a`, drawn on a cleared canvas, is stored as
`(a, a, a, a)`. -/
theorem compositeChannel_white (img : Image) (i : Nat)
    (hi : i < 4 * (img.width * img.height))
    (hc : i % 4 ≠ 3 → img.data.getD i 0 = 255) :
    compositeChannel 100 img (Canvas.create img.width img.height) i =
      img.data.getD (4 * (i / 4) + 3) 0 := by
  rw [compositeChannel_covered 100 img _ i rfl hi]
  have hz : (Canvas.create img.width img.height).data.getD i 0 = 0 := by
    simp only [Canvas.create, List.getD_eq_getElem?_getD, List.getElem?_replicate]
    split <;> rfl
  rw [hz, Nat.zero_mul, Nat.add_zero]
  have e : 255 * (img.data.getD (4 * (i / 4) + 3) 0 * 100) =
      img.data.getD (4 * (i / 4) + 3) 0 * 25500 := by ring
  by_cases h3 : i % 4 = 3
  · rw [if_pos h3, e, roundDiv_mul_self _ 25500 (by norm_num)]
  · rw [if_neg h3, hc h3, Nat.add_zero, e, roundDiv_mul_self _ 25500 (by norm_num)]

/-- The loop reads a white pixel of non-zero alpha as white. -/
theorem readPixels_white (img : Image)
    (hwhite : ∀ k, k < img.width * img.height →
      img.data[4 * k]? = some 255 ∧ img.data[4 * k + 1]? = some 255 ∧
      img.data[4 * k + 2]? = some 255 ∧ img.data.getD (4 * k + 3) 0 ≠ 0)
    (k : Nat) (hk : k < img.width * img.height) :
    (readPixels img)[4 * k]? = some 255 ∧ (readPixels img)[4 * k + 1]? = some 255 ∧
      (readPixels img)[4 * k + 2]? = some 255 := by
  obtain ⟨hr, hg, hb, ha⟩ := hwhite k hk
  have hcol : ∀ i, i / 4 = k → i % 4 ≠ 3 → img.data.getD i 0 = 255 := by
    intro i hik h3
    rw [List.getD_eq_getElem?_getD]
    have hcases : i = 4 * k ∨ i = 4 * k + 1 ∨ i = 4 * k + 2 := by omega
    rcases hcases with h | h | h
    · rw [h, hr]; rfl
    · rw [h, hg]; rfl
    · rw [h, hb]; rfl
  have hread : ∀ i, i / 4 = k → i % 4 ≠ 3 → (readPixels img)[i]? = some 255 := by
    intro i hik h3
    have hi : i < 4 * (img.width * img.height) := by omega
    have hi3 : 4 * (i / 4) + 3 < 4 * (img.width * img.height) := by omega
    have hdiv : (4 * (i / 4) + 3) / 4 = i / 4 := by omega
    unfold readPixels
    rw [getElem?_getImageData _ i hi, getD_drawImage 100 img _ i hi,
      getD_drawImage 100 img _ (4 * (i / 4) + 3) hi3,
      compositeChannel_white img i hi (hcol i hik),
      compositeChannel_white img (4 * (i / 4) + 3) hi3 (fun h => absurd (by omega) h),
      hdiv, hik, if_neg h3, if_neg ha, Nat.mul_comm, roundDiv_mul_self 255 _ (by omega)]
  exact ⟨hread (4 * k) (by omega) (by omega), hread (4 * k + 1) (by omega) (by omega),
    hread (4 * k + 2) (by omega) (by omega)⟩

/-- C13, counterexample: a white pixel that is fully transparent is read
through the canvas as `(0, 0, 0, 0)`, whose luminance 0 is below both
thresholds, and both variants paint it with their mark colour. -/
theorem transparent_white_is_marked :
    clearWhitePixel.data = [255, 255, 255, 0] ∧ readPixels clearWhitePixel = [0, 0, 0, 0] ∧
    (generateSegmentedImageOnload ModelType.baseUnet clearWhitePixel
        Page.initial).segmentedImageSrcBase =
      Src.dataURL (some { width := 1, height := 1, data := [255, 0, 0, 255] }) ∧
    (generateSegmentedImageOnload ModelType.cbamNet clearWhitePixel
        Page.initial).segmentedImageSrcCBAM =
      Src.dataURL (some { width := 1, height := 1, data := [0, 0, 255, 255] }) := by
  decide

/-- C13, amended: for an image of any size whose pixels all have
R = G = B = 255 and a non-zero alpha, `generateSegmentedImage` stores for every
variant a result whose pixels are all `(255, 255, 255, 255)`: the pixels are
read through the canvas as white, and the luminance of a white pixel is not
below either threshold. -/
theorem generateSegmentedImageOnload_white (m : ModelType) (img : Image) (p : Page)
    (hpos : 0 < img.width * img.height)
    (hwhite : ∀ k, k < img.width * img.height →
      img.data[4 * k]? = some 255 ∧ img.data[4 * k + 1]? = some 255 ∧
      img.data[4 * k + 2]? = some 255 ∧ img.data.getD (4 * k + 3) 0 ≠ 0) :
    (∃ out, generateSegmentedImageOnload m img p =
        storeResult m (Src.dataURL (some { img with data := out })) p ∧
      out.length = 4 * (img.width * img.height) ∧
      ∀ k, k < img.width * img.height → pixelAt out k = some (255, 255, 255, 255)) ∧
    ¬ gray 255 255 255 < ofInt (threshold ModelType.baseUnet) ∧
    ¬ gray 255 255 255 < ofInt (threshold ModelType.cbamNet) := by
  refine ⟨?_, by decide, by decide⟩
  obtain ⟨out, hout, hl, hpx⟩ := segmentData_white m (readPixels img) (img.width * img.height)
    (length_readPixels img) (readPixels_white img hwhite)
  refine ⟨out, ?_, hl, hpx⟩
  unfold generateSegmentedImageOnload
  rw [if_neg (by omega), hout]

/-- C13, witness: two white pixels of alpha 255 and 7, under 'cbamNet'. -/
theorem generateSegmentedImageOnload_white_witness :
    0 < fadedWhitePair.width * fadedWhitePair.height ∧
    (∀ k, k < fadedWhitePair.width * fadedWhitePair.height →
      fadedWhitePair.data[4 * k]? = some 255 ∧ fadedWhitePair.data[4 * k + 1]? = some 255 ∧
      fadedWhitePair.data[4 * k + 2]? = some 255 ∧ fadedWhitePair.data.getD (4 * k + 3) 0 ≠ 0) ∧
    ∃ out, generateSegmentedImageOnload ModelType.cbamNet fadedWhitePair Page.initial =
        storeResult ModelType.cbamNet (Src.dataURL (some { fadedWhitePair with data := out }))
          Page.initial ∧
      out.length = 4 * (fadedWhitePair.width * fadedWhitePair.height) ∧
      ∀ k, k < fadedWhitePair.width * fadedWhitePair.height →
        pixelAt out k = some (255, 255, 255, 255) :=
  ⟨by decide, by decide,
    (generateSegmentedImageOnload_white ModelType.cbamNet fadedWhitePair Page.initial (by decide)
      (by decide)).1⟩

theorem ofInt_threshold_lt : ofInt (threshold ModelType.cbamNet) < ofInt (threshold ModelType.baseUnet) := by
  decide

/-- C15: for every input buffer the pixels marked by 'cbamNet' are among those
marked by 'baseUnet': wherever the 'cbamNet' output is `(0, 0, 255, 255)` the
'baseUnet' output is `(255, 0, 0, 255)`, and wherever 'baseUnet' leaves
`(255, 255, 255, 255)` so does 'cbamNet'. -/
theorem cbamNet_marks_subset (data : List Nat) (n : Nat) (hlen : data.length = 4 * n) :
    ∃ outBase outCBAM, segmentData ModelType.baseUnet data = some outBase ∧
      segmentData ModelType.cbamNet data = some outCBAM ∧
      ∀ k, k < n →
        (pixelAt outCBAM k = some (0, 0, 255, 255) → pixelAt outBase k = some (255, 0, 0, 255)) ∧
        (pixelAt outBase k = some (255, 255, 255, 255) →
          pixelAt outCBAM k = some (255, 255, 255, 255)) := by
  obtain ⟨outB, hB, _, hpB⟩ := segmentData_spec ModelType.baseUnet data n hlen
  obtain ⟨outC, hC, _, hpC⟩ := segmentData_spec ModelType.cbamNet data n hlen
  refine ⟨outB, outC, hB, hC, ?_⟩
  intro k hk
  obtain ⟨r, g, b, a, hp⟩ := pixelAt_of_lt data n k hlen hk
  rw [hpB k r g b a hp, hpC k r g b a hp]
  have hlt := ofInt_threshold_lt
  unfold paintedPixel
  by_cases hc : gray r g b < ofInt (threshold ModelType.cbamNet)
  · have hb : gray r g b < ofInt (threshold ModelType.baseUnet) := lt_trans hc hlt
    rw [if_pos hc, if_pos hb]
    exact ⟨fun _ => by decide, fun h => absurd h (by decide)⟩
  · rw [if_neg hc]
    exact ⟨fun h => absurd h (by decide), fun _ => rfl⟩

/-- C15, witness: a dark, a middle (luminance between 90 and 100) and a light
pixel. -/
theorem cbamNet_marks_subset_witness :
    ([10, 10, 10, 255, 95, 95, 95, 255, 200, 200, 200, 255] : List Nat).length = 4 * 3 ∧
    ∃ outBase outCBAM,
      segmentData ModelType.baseUnet [10, 10, 10, 255, 95, 95, 95, 255, 200, 200, 200, 255] =
        some outBase ∧
      segmentData ModelType.cbamNet [10, 10, 10, 255, 95, 95, 95, 255, 200, 200, 200, 255] =
        some outCBAM ∧
      ∀ k, k < 3 →
        (pixelAt outCBAM k = some (0, 0, 255, 255) → pixelAt outBase k = some (255, 0, 0, 255)) ∧
        (pixelAt outBase k = some (255, 255, 255, 255) →
          pixelAt outCBAM k = some (255, 255, 255, 255)) :=
  ⟨by decide,
    cbamNet_marks_subset [10, 10, 10, 255, 95, 95, 95, 255, 200, 200, 200, 255] 3 (by decide)⟩

theorem gray_grey_lt_iff (v t bound : Nat) (hv : v ≤ 255)
    (h1 : 9999 * bound < 10000 * t) (h2 : 10000 * t < 9999 * (bound + 1)) :
    gray v v v < ofInt t ↔ v ≤ bound := by
  constructor
  · intro h
    by_contra hn
    exact gray_ge_of_exact v v v t hv hv hv (by omega) h
  · intro h
    exact gray_lt_of_exact v v v t hv hv hv (by omega)

/-- C16: the luminance of a grey pixel `(v, v, v)` is `0.9999 * v`, so the
strict comparison is inclusive on grey levels: for every `v` in 0..255, a
pixel `(v, v, v)` of any buffer, with any alpha, is painted `(255, 0, 0, 255)`
by 'baseUnet' if and only if `v ≤ 100` and `(0, 0, 255, 255)` by 'cbamNet' if
and only if `v ≤ 90`; otherwise it is painted white. -/
theorem grey_marked_iff (data : List Nat) (n k v a : Nat) (hlen : data.length = 4 * n)
    (hpx : pixelAt data k = some (v, v, v, a)) (hv : v ≤ 255) :
    luminance v v v = 0.9999 * (v : ℚ) ∧
    (∃ outBase, segmentData ModelType.baseUnet data = some outBase ∧
      (pixelAt outBase k = some (255, 0, 0, 255) ↔ v ≤ 100) ∧
      (pixelAt outBase k = some (255, 255, 255, 255) ↔ 100 < v)) ∧
    (∃ outCBAM, segmentData ModelType.cbamNet data = some outCBAM ∧
      (pixelAt outCBAM k = some (0, 0, 255, 255) ↔ v ≤ 90) ∧
      (pixelAt outCBAM k = some (255, 255, 255, 255) ↔ 90 < v)) := by
  have hB : gray v v v < ofInt (threshold ModelType.baseUnet) ↔ v ≤ 100 :=
    gray_grey_lt_iff v 100 100 hv (by norm_num) (by norm_num)
  have hC : gray v v v < ofInt (threshold ModelType.cbamNet) ↔ v ≤ 90 :=
    gray_grey_lt_iff v 90 90 hv (by norm_num) (by norm_num)
  obtain ⟨outB, hoB, _, hpB⟩ := segmentData_spec ModelType.baseUnet data n hlen
  obtain ⟨outC, hoC, _, hpC⟩ := segmentData_spec ModelType.cbamNet data n hlen
  refine ⟨by unfold luminance; ring, ⟨outB, hoB, ?_⟩, ⟨outC, hoC, ?_⟩⟩
  · rw [hpB k v v v a hpx]
    unfold paintedPixel
    by_cases h : v ≤ 100
    · rw [if_pos (hB.mpr h)]
      exact ⟨⟨fun _ => h, fun _ => by decide⟩, ⟨fun h2 => absurd h2 (by decide), fun h2 => by omega⟩⟩
    · rw [if_neg (fun hg => h (hB.mp hg))]
      exact ⟨⟨fun h2 => absurd h2 (by decide), fun h2 => absurd h2 h⟩, ⟨fun _ => by omega, fun _ => rfl⟩⟩
  · rw [hpC k v v v a hpx]
    unfold paintedPixel
    by_cases h : v ≤ 90
    · rw [if_pos (hC.mpr h)]
      exact ⟨⟨fun _ => h, fun _ => by decide⟩, ⟨fun h2 => absurd h2 (by decide), fun h2 => by omega⟩⟩
    · rw [if_neg (fun hg => h (hC.mp hg))]
      exact ⟨⟨fun h2 => absurd h2 (by decide), fun h2 => absurd h2 h⟩, ⟨fun _ => by omega, fun _ => rfl⟩⟩

/-- C16, witness: grey level 100, which 'baseUnet' paints red. -/
theorem grey_marked_iff_witness :
    ([100, 100, 100, 255] : List Nat).length = 4 * 1 ∧
    pixelAt [100, 100, 100, 255] 0 = some (100, 100, 100, 255) ∧ (100 : Nat) ≤ 255 ∧
    (∃ outBase, segmentData ModelType.baseUnet [100, 100, 100, 255] = some outBase ∧
      (pixelAt outBase 0 = some (255, 0, 0, 255) ↔ 100 ≤ 100) ∧
      (pixelAt outBase 0 = some (255, 255, 255, 255) ↔ 100 < 100)) :=
  ⟨by decide, by decide, by decide,
    (grey_marked_iff [100, 100, 100, 255] 1 0 100 255 (by decide) (by decide) (by decide)).2.1⟩

/-! ## C14: removing the file -/

/-- C14: the click on `removeFile` discards the uploaded image and what was
derived from it: afterwards `selectedFile` is null, `originalImageSrc` and both
cached results are empty, `currentModel` is 'baseUnet', `currentDisplayMode`
is 'single' and `currentOpacity` is 50, while `currentView` is as before. -/
theorem removeFile_resets (p : Page) :
    step p Event.remove = some (removeFileClick p) ∧
    (removeFileClick p).selectedFile = none ∧
    (removeFileClick p).originalImageSrc = Src.empty ∧
    (removeFileClick p).segmentedImageSrcBase = Src.empty ∧
    (removeFileClick p).segmentedImageSrcCBAM = Src.empty ∧
    (removeFileClick p).currentModel = ModelType.baseUnet ∧
    (removeFileClick p).currentDisplayMode = DisplayMode.single ∧
    (removeFileClick p).currentOpacity = 50 ∧
    (removeFileClick p).currentView = p.currentView :=
  ⟨rfl, rfl, rfl, rfl, rfl, rfl, rfl, rfl, rfl⟩

/-! ## C12: the size text -/

theorem decimalAux_eq (n : Nat) : ∀ (f1 f2 : Nat) (acc : List Char), n < f1 → n < f2 →
    decimalAux f1 n acc = decimalAux f2 n [] ++ acc := by
  induction n using Nat.strong_induction_on with
  | _ n ih =>
    intro f1 f2 acc h1 h2
    cases f1 with
    | zero => omega
    | succ f1 =>
      cases f2 with
      | zero => omega
      | succ f2 =>
        unfold decimalAux
        by_cases h : n < 10
        · rw [if_pos h, if_pos h]
          rfl
        · rw [if_neg h, if_neg h]
          have hlt : n / 10 < n := Nat.div_lt_self (by omega) (by norm_num)
          rw [ih (n / 10) hlt f1 f2 _ (by omega) (by omega),
            ih (n / 10) hlt f2 f2 [digitChar (n % 10)] (by omega) (by omega)]
          simp

theorem decimal_of_lt (n : Nat) (h : n < 10) : decimal n = [digitChar n] := by
  unfold decimal decimalAux
  rw [if_pos h]

theorem decimal_of_ge (n : Nat) (h : 10 ≤ n) :
    decimal n = decimal (n / 10) ++ [digitChar (n % 10)] := by
  have hlt : n / 10 < n := Nat.div_lt_self (by omega) (by norm_num)
  unfold decimal
  rw [decimalAux]
  rw [if_neg (by omega)]
  exact decimalAux_eq (n / 10) n (n / 10 + 1) _ hlt (by omega)

theorem decimal_ne_nil (n : Nat) : decimal n ≠ [] := by
  by_cases h : n < 10
  · rw [decimal_of_lt n h]
    simp
  · rw [decimal_of_ge n (by omega)]
    simp

theorem decimal_hundreds (q : Nat) (h : 100 ≤ q) :
    decimal q = decimal (q / 100) ++ [digitChar (q / 10 % 10), digitChar (q % 10)] := by
  rw [decimal_of_ge q (by omega), decimal_of_ge (q / 10) (by omega), Nat.div_div_eq_div_mul]
  simp

/-- The padding and the point of `toFixed(2)` give the two-place rendering of
the hundredths. -/
theorem toFixed2_eq (num den : Nat) (h : num < 10 ^ 21 * den) :
    toFixed2 num den = some (twoPlaces ((2 * 100 * num + den) / (2 * den))) := by
  unfold toFixed2
  rw [if_neg (by omega)]
  simp only
  generalize (2 * 100 * num + den) / (2 * den) = q
  congr 1
  unfold twoPlaces
  by_cases h1 : q < 10
  · have e1 : q / 100 = 0 := by omega
    have e2 : q / 10 % 10 = 0 := by omega
    have e3 : q % 10 = q := by omega
    rw [decimal_of_lt q h1, e1, e2, e3, decimal_of_lt 0 (by norm_num)]
    rfl
  · by_cases h2 : q < 100
    · have e1 : q / 100 = 0 := by omega
      have e2 : q / 10 % 10 = q / 10 := by omega
      rw [decimal_of_ge q (by omega), decimal_of_lt (q / 10) (by omega), e1, e2,
        decimal_of_lt 0 (by norm_num)]
      rfl
    · rw [decimal_hundreds q (by omega)]
      have hne := decimal_ne_nil (q / 100)
      have hpos : 0 < (decimal (q / 100)).length := List.length_pos.mpr hne
      have hlen : (decimal (q / 100) ++ [digitChar (q / 10 % 10), digitChar (q % 10)]).length =
          (decimal (q / 100)).length + 2 := by simp
      rw [if_neg (by rw [hlen]; omega), hlen, Nat.add_sub_cancel, List.take_left' rfl,
        List.drop_left' rfl]

theorem nearestHundredths_div (num den : Nat) (hden : 0 < den) :
    NearestHundredths num den ((2 * 100 * num + den) / (2 * den)) := by
  unfold NearestHundredths
  have hpos : 0 < 2 * den := by omega
  have h1 := Nat.div_add_mod (2 * 100 * num + den) (2 * den)
  have h2 := Nat.mod_lt (2 * 100 * num + den) hpos
  generalize (2 * 100 * num + den) / (2 * den) = q at *
  generalize (2 * 100 * num + den) % (2 * den) = r at *
  rw [Nat.mul_add, Nat.mul_one]
  constructor <;> omega

/-- C12: for every byte count `n` that a JavaScript number holds exactly
(`n < 2^53`), `formatFileSize(n)` is the decimal digits of `n` followed by
` B` when `n < 1024`; `n / 1024` rounded to the nearest hundredth and written
with exactly two decimal places, followed by ` KB`, when
`1024 ≤ n < 1048576`; and `n / 1048576` written in the same way, followed by
` MB`, when `1048576 ≤ n`.  So `1023` gives `1023 B`, `1024` gives `1.00 KB`
and `1048576` gives `1.00 MB`. -/
theorem formatFileSize_spec (n : Nat) (hn : n < 2 ^ 53) :
    (n < 1024 → formatFileSize n = some (String.mk (decimal n ++ " B".toList))) ∧
    (1024 ≤ n → n < 1048576 →
      ∃ q, NearestHundredths n 1024 q ∧
        formatFileSize n = some (String.mk (twoPlaces q ++ " KB".toList))) ∧
    (1048576 ≤ n →
      ∃ q, NearestHundredths n 1048576 q ∧
        formatFileSize n = some (String.mk (twoPlaces q ++ " MB".toList))) ∧
    formatFileSize 1023 = some "1023 B" ∧ formatFileSize 1024 = some "1.00 KB" ∧
    formatFileSize 1048576 = some "1.00 MB" := by
  have h53 : (2 : Nat) ^ 53 = 9007199254740992 := by norm_num
  have h21 : (10 : Nat) ^ 21 = 1000000000000000000000 := by norm_num
  refine ⟨?_, ?_, ?_, by decide, by decide, by decide⟩
  · intro h
    unfold formatFileSize
    rw [if_pos h]
  · intro h1 h2
    refine ⟨_, nearestHundredths_div n 1024 (by norm_num), ?_⟩
    unfold formatFileSize
    rw [if_neg (by omega), if_pos h2, toFixed2_eq n 1024 (by rw [h21]; omega)]
    rfl
  · intro h1
    refine ⟨_, nearestHundredths_div n 1048576 (by norm_num), ?_⟩
    unfold formatFileSize
    rw [if_neg (by omega), if_neg (by omega), toFixed2_eq n 1048576 (by rw [h21]; omega)]
    rfl

/-- C12, witness: 1152 bytes are `1.125` KiB, written `1.13 KB`. -/
theorem formatFileSize_spec_witness :
    1152 < 2 ^ 53 ∧ formatFileSize 1152 = some "1.13 KB" ∧
    ∃ q, NearestHundredths 1152 1024 q ∧
      formatFileSize 1152 = some (String.mk (twoPlaces q ++ " KB".toList)) :=
  ⟨by decide, by decide, (formatFileSize_spec 1152 (by decide)).2.1 (by decide) (by decide)⟩

end RetinalSeg
